import Mathlib

/-!
# hetzner-freezer: freeze / unfreeze orchestration

A shallow embedding of `dump/load.go`, `dump/store.go`, `dump/models.go` and
`resolver/resolver.go`, followed by theorems about it.

Conventions of the embedding
* a Go `string` / `[]byte` is a `List Char` (`Str`);
* a Go `error` is a value of `Err`: the messages of the `fmt.Errorf` / `errors.New` sites of
  the source with their formatted arguments, `wrap` for the sites that wrap a cause;
* a remote call `(value, resp, err)` is a `Reply`;
* the operating system, the JSON library and the control plane are parameters.
-/

namespace HetznerFreezer

/-! ## Strings and the Go standard-library functions the program calls -/

/-- Go strings and byte slices. -/
abbrev Str := List Char

/-- The function `strings.Join(elems, sep)`. -/
def stringsJoin (elems : List Str) (sep : Str) : Str :=
  sep.intercalate elems

/-- Scanning loop of `strings.ReplaceAll` for a non-empty `old`: `skip` counts the
characters of a matched occurrence still to be dropped. -/
def replaceScan (old new : Str) : Nat → Str → Str
  | _, [] => []
  | skip + 1, _ :: cs => replaceScan old new skip cs
  | 0, c :: cs =>
    if old.isPrefixOf (c :: cs) then new ++ replaceScan old new (old.length - 1) cs
    else c :: replaceScan old new 0 cs

/-- The function `strings.ReplaceAll(s, old, new)`: non-overlapping occurrences of `old`,
found left to right, are replaced by `new`; an empty `old` matches before every character
and at the end. -/
def stringsReplaceAll (s old new : Str) : Str :=
  match old with
  | [] => new ++ (s.map (fun c => c :: new)).flatten
  | _ :: _ => replaceScan old new 0 s

/-- Scanning loop of `strings.Split` for a non-empty `sep`: `cur` is the current piece,
reversed, `skip` the characters of a matched separator still to be dropped. -/
def splitScan (sep : Str) : Nat → Str → Str → List Str
  | _, cur, [] => [cur.reverse]
  | skip + 1, cur, _ :: cs => splitScan sep skip cur cs
  | 0, cur, c :: cs =>
    if sep.isPrefixOf (c :: cs) then cur.reverse :: splitScan sep (sep.length - 1) [] cs
    else splitScan sep 0 (c :: cur) cs

/-- The function `strings.Split(s, sep)`; an empty `sep` splits after every character. -/
def stringsSplit (s sep : Str) : List Str :=
  match sep with
  | [] => s.map (fun c => [c])
  | _ :: _ => splitScan sep 0 [] s

/-- The function `strings.Contains(s, substr)`. -/
def stringsContains (s substr : Str) : Bool :=
  s.tails.any (fun t => substr.isPrefixOf t)

/-- Value of a decimal digit character. -/
def digitVal (c : Char) : Nat := c.toNat - 48

/-- Value of a string of decimal digits, most significant first. -/
def digitsVal (ds : Str) : Nat := ds.foldl (fun acc c => acc * 10 + digitVal c) 0

/-- Unsigned part of `strconv.Atoi`: a non-empty string of decimal digits. -/
def isDigits (ds : Str) : Bool := !ds.isEmpty && ds.all Char.isDigit

/-- What `strconv.Atoi` returns: the number, and whether the error is `nil`. -/
structure AtoiResult where
  num : Int
  ok : Bool
  deriving DecidableEq, Repr

/-- Signed value of `strconv.Atoi` once the syntax is right: out of the range of a 64-bit
`int` the nearest bound is returned with a range error. -/
def atoiRange (neg : Bool) (v : Nat) : AtoiResult :=
  if neg then
    if v > 2 ^ 63 then { num := -(2 ^ 63), ok := false } else { num := -(v : Int), ok := true }
  else
    if v ≥ 2 ^ 63 then { num := 2 ^ 63 - 1, ok := false } else { num := (v : Int), ok := true }

/-- The function `strconv.Atoi(s)` on a 64-bit platform: an optional sign followed by a
non-empty string of decimal digits; a syntax error returns the number 0. -/
def Atoi (s : Str) : AtoiResult :=
  match s with
  | '-' :: ds => if isDigits ds then atoiRange true (digitsVal ds) else { num := 0, ok := false }
  | '+' :: ds => if isDigits ds then atoiRange false (digitsVal ds) else { num := 0, ok := false }
  | ds => if isDigits ds then atoiRange false (digitsVal ds) else { num := 0, ok := false }

/-- The function `strconv.Itoa(i)`. -/
def Itoa (i : Int) : Str :=
  if i < 0 then '-' :: Nat.toDigits 10 i.natAbs else Nat.toDigits 10 i.toNat

/-- The function `slices.Sort` on a slice of `int`: ascending order. -/
def slicesSort (xs : List Int) : List Int :=
  xs.insertionSort (· ≤ ·)

/-! ## dump/models.go -/

/-- The constant `defaultPath`. -/
def defaultPath : Str := "output".toList

/-- The function `NewServerDumpPath`: `fmt.Sprintf("%s/%s/%s/%s", ...)`. -/
def NewServerDumpPath (dir project serverName dumpID : Str) : Str :=
  let dir := if dir.length = 0 then defaultPath else dir
  dir ++ '/' :: project ++ '/' :: serverName ++ '/' :: dumpID

/-- The function `NewServerPath`: `fmt.Sprintf("%s/%s/%s", ...)`. -/
def NewServerPath (dir project serverName : Str) : Str :=
  let dir := if dir.length = 0 then defaultPath else dir
  dir ++ '/' :: project ++ '/' :: serverName

/-! ## The records of a dump (`schema` package of the control-plane client) -/

/-- Modelled from the spec: `schema.ServerPrivateNet`, one private-network attachment
(network id and assigned IPv4 address string). -/
structure ServerPrivateNet where
  Network : Int
  IP : Str
  deriving DecidableEq, Repr

/-- Modelled from the spec: `schema.ServerPublicNetIPv4` / `IPv6`, of which the program
reads the assignment id (zero when absent). -/
structure ServerPublicNetIP where
  ID : Int
  deriving DecidableEq, Repr

/-- Modelled from the spec: `schema.ServerFirewall`, an attached firewall id. -/
structure ServerFirewall where
  ID : Int
  deriving DecidableEq, Repr

/-- Modelled from the spec: `schema.ServerPublicNet`, the public network descriptor. -/
structure ServerPublicNet where
  IPv4 : ServerPublicNetIP
  IPv6 : ServerPublicNetIP
  Firewalls : List ServerFirewall
  deriving DecidableEq, Repr

/-- Modelled from the spec: `schema.Server` (and `hcloud.Server`, which
`hcloud.SchemaFromServer` copies field by field), restricted to the fields this program
reads. `ServerTypeID`, `DatacenterID` and `PlacementGroupID` stand for `ServerType.ID`,
`Datacenter.ID` and the optional `PlacementGroup.ID`. -/
structure Server where
  ID : Int
  Name : Str
  ServerTypeID : Int
  DatacenterID : Int
  PlacementGroupID : Option Int
  Labels : List (Str × Str)
  Volumes : List Int
  PrivateNet : List ServerPrivateNet
  PublicNet : ServerPublicNet
  deriving DecidableEq, Repr

/-- Modelled from the spec: `schema.FloatingIP` (and `hcloud.FloatingIP`): id, the
address as `IP.String()` renders it, and the id of the server it is assigned to. -/
structure FloatingIP where
  ID : Int
  IP : Str
  Server : Option Int
  deriving DecidableEq, Repr

/-- Modelled from the spec: `schema.SSHKey`, of which the program reads the id. -/
structure SSHKey where
  ID : Int
  deriving DecidableEq, Repr

/-- Modelled from the spec: `schema.Image`, of which the program reads the id. -/
structure Image where
  ID : Int
  deriving DecidableEq, Repr

/-- The struct `ServerDump` of `dump/models.go`. -/
structure ServerDump where
  Server : Server
  FloatingIPs : List FloatingIP
  SSHKeys : List SSHKey
  Snapshot : Image
  deriving DecidableEq, Repr

/-- The zero value of `schema.Server`. -/
def Server.zero : Server :=
  { ID := 0, Name := [], ServerTypeID := 0, DatacenterID := 0, PlacementGroupID := none,
    Labels := [], Volumes := [], PrivateNet := [],
    PublicNet := { IPv4 := ⟨0⟩, IPv6 := ⟨0⟩, Firewalls := [] } }

/-- The value `ServerDump{}`. -/
def ServerDump.zero : ServerDump :=
  { Server := Server.zero, FloatingIPs := [], SSHKeys := [], Snapshot := ⟨0⟩ }

/-! ## Remote actions and errors -/

/-- The three values of `hcloud.ActionStatus`. -/
inductive ActionStatus
  | running
  | success
  | error
  deriving DecidableEq, Repr

/-- The struct `hcloud.Action`, as far as the program reads it. -/
structure Action where
  ID : Int
  Status : ActionStatus
  Progress : Int
  ErrorMessage : Str
  deriving DecidableEq, Repr

/-- An error of the operating system; `notExist` is what `os.IsNotExist(err)` and
`errors.Is(err, os.ErrNotExist)` answer. -/
structure OsErr where
  text : Str
  notExist : Bool
  deriving DecidableEq, Repr

/-- Go `error` values of the program. `wrap msg cause` is `fmt.Errorf("<msg>: %w", cause)`
and `status msg code` is `fmt.Errorf("<msg>: status %d ", code)`. -/
inductive Err
  | os (e : OsErr)
  | lib (text : Str)
  | client (text : Str)
  | wrap (msg : Str) (cause : Err)
  | status (msg : Str) (code : Nat)
  | noDumps
  | serverNotFound (name : Str)
  | actionFailed (status : ActionStatus) (message : Str)
  | deadline (status : ActionStatus)
  | cancelled (status : ActionStatus)
  deriving DecidableEq, Repr

/-- How a call of the Go code ends: it returns a value, returns an error, panics
(nil-pointer dereference), or never returns. -/
inductive Res (α : Type)
  | ok (a : α)
  | err (e : Err)
  | panic
  | blocked
  deriving DecidableEq, Repr

/-- The triple `(value, resp, err)` of a control-plane call: `fail` is `err != nil`,
`http code val` is a response with status `code`. -/
inductive Reply (α : Type)
  | fail (e : Str)
  | http (code : Nat) (val : α)
  deriving DecidableEq, Repr

/-! ## The dump directory (`afero.Fs`) and the JSON library -/

/-- What opening and reading a file gives: `Open` fails, `io.ReadAll` fails, or the
content. -/
inductive Opened
  | fails (e : OsErr)
  | unreadable (e : OsErr)
  | bytes (bb : Str)
  deriving DecidableEq, Repr

/-- The error of a path that does not exist. -/
def ErrNotExist : OsErr := { text := "file does not exist".toList, notExist := true }

/-- One directory seen through `afero.NewBasePathFs`: whether it exists, what each file
name gives when opened, and the errors `Create` and `Write` meet. -/
structure Fs where
  dirExists : Bool
  file : Str → Opened
  createErr : Str → Option OsErr
  writeErr : Str → Option OsErr

/-- The method `Open` followed by `io.ReadAll`. -/
def Fs.Open (p : Fs) (name : Str) : Opened :=
  if p.dirExists then p.file name else Opened.fails ErrNotExist

/-- The method `Create`: an empty file of that name. -/
def Fs.Create (p : Fs) (name : Str) : Option OsErr × Fs :=
  if p.dirExists then
    match p.createErr name with
    | some e => (some e, p)
    | none => (none, { p with file := fun n => if n = name then Opened.bytes [] else p.file n })
  else (some ErrNotExist, p)

/-- The method `Write` of the file `Create` returned. -/
def Fs.Write (p : Fs) (name : Str) (bb : Str) : Option OsErr × Fs :=
  match p.writeErr name with
  | some e => (some e, p)
  | none => (none, { p with file := fun n => if n = name then Opened.bytes bb else p.file n })

/-- `json.Marshal` and `json.Unmarshal` at one Go type. `Unmarshal bb target` gives the
error and the value left in `target`. -/
structure Codec (α : Type) where
  Marshal : α → Except Str Str
  Unmarshal : Str → α → Option Str × α

/-- The package `encoding/json` at the four part types, and `json.Indent` with the
four-space indent. -/
structure Json where
  server : Codec Server
  floatingIPs : Codec (List FloatingIP)
  sshKeys : Codec (List SSHKey)
  snapshot : Codec Image
  Indent : Str → Except Str Str

/-! ## dump/load.go -/

/-- The function `loadPart`: error and the value left in `target`. -/
def loadPart {α : Type} (path : Fs) (name : Str) (unmarshal : Str → α → Option Str × α)
    (target : α) : Option Err × α :=
  match path.Open (name ++ ".json".toList) with
  | Opened.fails e =>
    if e.notExist then (none, target)
    else (some (Err.wrap ("failed to check if '".toList ++ name ++ "' exists".toList) (Err.os e)),
          target)
  | Opened.unreadable e => (some (Err.wrap ("failed read ".toList ++ name) (Err.os e)), target)
  | Opened.bytes bb =>
    match unmarshal bb target with
    | (some e, t) => (some (Err.wrap ("failed to read from '".toList ++ name) (Err.lib e)), t)
    | (none, t) => (none, t)

/-- The closure `load` of `loadServer`; `err` is the captured variable. -/
def load {α : Type} (p : Fs) (err : Option Err) (name : Str)
    (unmarshal : Str → α → Option Str × α) (target : α) : Option Err × α :=
  match err with
  | some e => (some e, target)
  | none =>
    match loadPart p name unmarshal target with
    | (some loadErr, t) =>
      (some (Err.wrap ("failed to load '".toList ++ name ++ "'".toList) loadErr), t)
    | (none, t) => (none, t)

/-- The closure-local `err` of `loadServer` after the four `load` calls, and the dump. -/
def loadParts (j : Json) (p : Fs) : Option Err × ServerDump :=
  let s := ServerDump.zero
  let (err, server) := load p none "server".toList j.server.Unmarshal s.Server
  let (err, floatingIPs) := load p err "floatingIPs".toList j.floatingIPs.Unmarshal s.FloatingIPs
  let (err, sshKeys) := load p err "sshKeys".toList j.sshKeys.Unmarshal s.SSHKeys
  let (err, snapshot) := load p err "snapshot".toList j.snapshot.Unmarshal s.Snapshot
  (err, { Server := server, FloatingIPs := floatingIPs, SSHKeys := sshKeys, Snapshot := snapshot })

/-- The function `loadServer`: it ends in `return &s, nil`, whatever `err` holds. -/
def loadServer (j : Json) (p : Fs) : ServerDump × Option Err :=
  ((loadParts j p).2, none)

/-! ## dump/store.go -/

/-- The function `storePart`. -/
def storePart (j : Json) (parent : Fs) (name : Str) (bb : Str) : Option Err × Fs :=
  if bb.length = 0 then (none, parent)
  else
    match j.Indent bb with
    | Except.error e => (some (Err.wrap ("failed to format '".toList ++ name ++ "'".toList) (Err.lib e)), parent)
    | Except.ok output =>
      match parent.Create (name ++ ".json".toList) with
      | (some e, fs) =>
        (some (Err.wrap ("failed to create '".toList ++ (name ++ ".json".toList) ++ "'".toList)
          (Err.os e)), fs)
      | (none, fs) =>
        match fs.Write (name ++ ".json".toList) output with
        | (some e, fs) => (some (Err.wrap "failed to write json output".toList (Err.os e)), fs)
        | (none, fs) => (none, fs)

/-- The closure `store` of `storeServer`. Its `err` is declared by `bb, err := ...` inside
the closure, so it is the closure's own variable: the value computed here is what that
variable holds when the closure returns. -/
def store {α : Type} (j : Json) (p : Fs) (name : Str) (marshal : α → Except Str Str) (obj : α) :
    Option Err × Fs :=
  match marshal obj with
  | Except.error e =>
    (some (Err.wrap ("failed to process '".toList ++ name ++ "'".toList) (Err.lib e)), p)
  | Except.ok bb =>
    match storePart j p name bb with
    | (some storeErr, fs) => (some (Err.wrap "failed to write to disc".toList storeErr), fs)
    | (none, fs) => (none, fs)

/-- The function `storeServer`: the outer `err` is declared `var err error` and never
assigned, so the function returns `nil`; the directory is the one the four `store` calls
leave. -/
def storeServer (j : Json) (p : Fs) (s : ServerDump) : Option Err × Fs :=
  let err : Option Err := none
  let p := (store j p "server".toList j.server.Marshal s.Server).2
  let p := (store j p "floatingIPs".toList j.floatingIPs.Marshal s.FloatingIPs).2
  let p := (store j p "sshKeys".toList j.sshKeys.Marshal s.SSHKeys).2
  let p := (store j p "snapshot".toList j.snapshot.Marshal s.Snapshot).2
  (err, p)

/-! ## resolver/resolver.go: waiting for an action -/

/-- One turn of the `select` of `waitForActionStatus`: the ticker fired and
`Action.GetByID` answered `r`, the deadline timer fired, or the context was cancelled. -/
inductive WaitEvent
  | tick (r : Reply Action)
  | deadline
  | done
  deriving DecidableEq, Repr

/-- Result of a wait and the number of `Action.GetByID` calls it issued. -/
structure WaitRun where
  result : Res Unit
  polls : Nat
  deriving DecidableEq, Repr

/-- The `for { select { ... } }` loop of `waitForActionStatus`; `statusAction` is the
pointer variable of that name (`none` is `nil`). When the environment delivers no further
event the loop stays blocked. -/
def waitLoop (statusAction : Option Action) (polls : Nat) : List WaitEvent → WaitRun
  | [] => { result := Res.blocked, polls := polls }
  | WaitEvent.tick (Reply.fail e) :: _ => { result := Res.err (Err.client e), polls := polls + 1 }
  | WaitEvent.tick (Reply.http code a) :: rest =>
    if code > 201 then
      { result := Res.err (Err.status "could not get action status".toList code),
        polls := polls + 1 }
    else if a.Status = ActionStatus.success then { result := Res.ok (), polls := polls + 1 }
    else if a.Status = ActionStatus.error then
      if stringsContains a.ErrorMessage "Unknown error".toList then
        waitLoop (some a) (polls + 1) rest
      else { result := Res.err (Err.actionFailed a.Status a.ErrorMessage), polls := polls + 1 }
    else waitLoop (some a) (polls + 1) rest
  | WaitEvent.deadline :: _ =>
    match statusAction with
    | none => { result := Res.panic, polls := polls }
    | some a => { result := Res.err (Err.deadline a.Status), polls := polls }
  | WaitEvent.done :: _ =>
    match statusAction with
    | none => { result := Res.panic, polls := polls }
    | some a => { result := Res.err (Err.cancelled a.Status), polls := polls }

/-- The method `waitForActionStatus`, given the events its `select` meets. -/
def waitForActionStatus (action : Action) (events : List WaitEvent) : WaitRun :=
  if action.Status = ActionStatus.success then { result := Res.ok (), polls := 0 }
  else waitLoop none 0 events

/-! ## The world of a run: disk, control plane -/

/-- One call of the walk function by `filepath.Walk`: the base name `info.Name()`,
`info.IsDir()`, and the error the walk passes in. -/
structure Visit where
  name : Str
  isDir : Bool
  err : Option OsErr
  deriving DecidableEq, Repr

/-- The operating system's file tree, path by path: the calls `filepath.Walk` makes from
a root (the root first, then what is under it, in lexical order), the error of `os.Stat`,
the error of `os.MkdirAll`, and the directory `afero.NewBasePathFs` sees. -/
structure Disk where
  walk : Str → List Visit
  stat : Str → Option OsErr
  mkdirErr : Str → Option OsErr
  base : Str → Fs

/-- The loop of `filepath.Walk` with the walk function of `GetDirectoriesNames`: an error
passed in is returned and ends the walk, a directory's name is appended. -/
def walkDirs : List Visit → List Str → Except OsErr (List Str)
  | [], directories => Except.ok directories
  | v :: rest, directories =>
    match v.err with
    | some e => Except.error e
    | none => walkDirs rest (if v.isDir then directories ++ [v.name] else directories)

/-- The function `GetDirectoriesNames`. -/
def GetDirectoriesNames (d : Disk) (dirPath : Str) : Except OsErr (List Str) :=
  walkDirs (d.walk dirPath) []

/-- The call `os.MkdirAll(path, os.ModePerm)`: afterwards the directory exists. -/
def MkdirAll (d : Disk) (path : Str) : Option OsErr × Disk :=
  match d.mkdirErr path with
  | some e => (some e, d)
  | none =>
    (none,
      { d with
        stat := fun q => if q = path then none else d.stat q
        base := fun q => if q = path then { d.base q with dirExists := true } else d.base q })

/-- The function `EnsureHasDirectory` of `dump/store.go`. -/
def EnsureHasDirectory (d : Disk) (path : Str) : Except Err Str × Disk :=
  let statFailed : Option OsErr :=
    match d.stat path with
    | some e => if e.notExist then none else some e
    | none => none
  match statFailed with
  | some e => (Except.error (Err.wrap ("could not stat dir ".toList ++ path) (Err.os e)), d)
  | none =>
    match MkdirAll d path with
    | (some e, d1) =>
      (Except.error (Err.wrap ("failed to create ".toList ++ path) (Err.os e)), d1)
    | (none, d1) => (Except.ok path, d1)

/-- The function `LoadServer`. -/
def LoadServer (j : Json) (d : Disk) (path : Str) : ServerDump × Option Err :=
  loadServer j (d.base path)

/-- The function `StoreServer`. -/
def StoreServer (j : Json) (d : Disk) (path : Str) (s : ServerDump) : Option Err × Disk :=
  let r := storeServer j (d.base path) s
  (r.1, { d with base := fun q => if q = path then r.2 else d.base q })

/-- The struct `hcloud.ServerCreatePublicNet`. -/
structure ServerCreatePublicNet where
  EnableIPv4 : Bool
  EnableIPv6 : Bool
  IPv4 : Option Int
  IPv6 : Option Int
  deriving DecidableEq, Repr

/-- The struct `hcloud.ServerCreateOpts`, resources by id. -/
structure ServerCreateOpts where
  Name : Str
  ServerType : Int
  Image : Int
  SSHKeys : List Int
  Datacenter : Int
  UserData : Str
  Labels : List (Str × Str)
  Volumes : List Int
  Firewalls : List Int
  PlacementGroup : Option Int
  PublicNet : ServerCreatePublicNet
  deriving DecidableEq, Repr

/-- Remote calls that change the control plane. -/
inductive Cmd
  | shutdown
  | createImage
  | unassignFloatingIP (id : Int)
  | unassignPrimaryIP (id : Int)
  | deleteServer
  | createServer (opts : ServerCreateOpts)
  | assignFloatingIP (id : Int)
  | attachToNetwork (network : Int) (ip : List Nat)
  deriving DecidableEq, Repr

/-- Remote calls that only read. -/
inductive Query
  | serverGetByName (name : Str)
  | floatingIPList
  | floatingIPGetByID (id : Int)
  | sshKeyList
  deriving DecidableEq, Repr

/-- What a run does that the outside can see, in order: remote commands and queries with
whether they answered without error and with a status of at most 201, waits for an action
with their result, and the dump directory being loaded or stored. -/
inductive Event
  | command (c : Cmd) (ok : Bool)
  | query (q : Query) (ok : Bool)
  | await (action : Int) (r : WaitRun)
  | load (path : Str)
  | store (path : Str) (d : ServerDump)
  deriving DecidableEq, Repr

/-- The control plane behind `hcloud.Client`, with state `σ`: each method answers and
moves the state. `waitEvents` is what the `select` of a wait for the given action meets. -/
structure Client (σ : Type) where
  serverGetByName : Str → σ → Reply (Option Server) × σ
  serverShutdown : Server → σ → Reply Action × σ
  serverCreateImage : Server → σ → Reply (Action × Image) × σ
  serverDeleteWithResult : Server → σ → Reply Action × σ
  serverCreate : ServerCreateOpts → σ → Reply (Action × Server) × σ
  serverAttachToNetwork : Server → Int → List Nat → σ → Reply Action × σ
  floatingIPList : σ → Reply (List FloatingIP) × σ
  floatingIPGetByID : Int → σ → Reply FloatingIP × σ
  floatingIPUnassign : FloatingIP → σ → Reply Action × σ
  floatingIPAssign : FloatingIP → Server → σ → Reply Action × σ
  primaryIPUnassign : Int → σ → Reply Action × σ
  sshKeyList : σ → Reply (List SSHKey) × σ
  waitEvents : Action → σ → List WaitEvent × σ

/-- The struct `resolverService`: its strings, the client and the JSON library. -/
structure resolverService (σ : Type) where
  project : Str
  directory : Str
  client : Client σ
  json : Json

/-- Everything outside the program during a run. -/
structure World (σ : Type) where
  plane : σ
  disk : Disk

/-- A run from a world: how it ends, the world it leaves, what it did. -/
structure Run (σ α : Type) where
  result : Res α
  world : World σ
  trace : List Event

/-- Code of the program: a run from every world. -/
def M (σ α : Type) : Type := World σ → Run σ α

/-- A step that only computes a value. -/
def M.pure {σ α : Type} (a : α) : M σ α :=
  fun w => { result := Res.ok a, world := w, trace := [] }

/-- Sequencing of statements: what follows runs only when what precedes returned a value;
an error, a panic or a block ends the run there. -/
def M.bind {σ α β : Type} (m : M σ α) (f : α → M σ β) : M σ β :=
  fun w =>
    match m w with
    | { result := Res.ok a, world := w1, trace := t1 } =>
      { result := (f a w1).result, world := (f a w1).world, trace := t1 ++ (f a w1).trace }
    | { result := Res.err e, world := w1, trace := t1 } =>
      { result := Res.err e, world := w1, trace := t1 }
    | { result := Res.panic, world := w1, trace := t1 } =>
      { result := Res.panic, world := w1, trace := t1 }
    | { result := Res.blocked, world := w1, trace := t1 } =>
      { result := Res.blocked, world := w1, trace := t1 }

instance {σ : Type} : Monad (M σ) where
  pure := M.pure
  bind := M.bind

/-- Statement `return ..., err`. -/
def fail {σ α : Type} (e : Err) : M σ α :=
  fun w => { result := Res.err e, world := w, trace := [] }

/-- A statement that panics (nil-pointer dereference). -/
def panicNow {σ α : Type} : M σ α :=
  fun w => { result := Res.panic, world := w, trace := [] }

/-- Whether a reply has `err == nil` and a status of at most 201. -/
def Reply.good {α : Type} : Reply α → Bool
  | Reply.fail _ => false
  | Reply.http code _ => decide (code ≤ 201)

/-- The checks after a remote call: `if err != nil { return err }` (the error wrapped
with `wrapMsg` where the source wraps it) and `if resp.StatusCode > 201 { return ... }`. -/
def checkReply {α : Type} (wrapMsg : Option Str) (statusMsg : Str) (r : Reply α) : Res α :=
  match r with
  | Reply.fail e =>
    match wrapMsg with
    | some msg => Res.err (Err.wrap msg (Err.client e))
    | none => Res.err (Err.client e)
  | Reply.http code val => if code > 201 then Res.err (Err.status statusMsg code) else Res.ok val

/-- A mutating remote call followed by its checks. -/
def command {σ α : Type} (c : Cmd) (wrapMsg : Option Str) (statusMsg : Str)
    (call : σ → Reply α × σ) : M σ α :=
  fun w =>
    { result := checkReply wrapMsg statusMsg (call w.plane).1
      world := { w with plane := (call w.plane).2 }
      trace := [Event.command c (call w.plane).1.good] }

/-- A reading remote call followed by its checks. -/
def query {σ α : Type} (q : Query) (wrapMsg : Option Str) (statusMsg : Str)
    (call : σ → Reply α × σ) : M σ α :=
  fun w =>
    { result := checkReply wrapMsg statusMsg (call w.plane).1
      world := { w with plane := (call w.plane).2 }
      trace := [Event.query q (call w.plane).1.good] }

/-- The call `p.waitForActionStatus(ctx, action)` inside a run. -/
def awaitAction {σ : Type} (p : resolverService σ) (action : Action) : M σ Unit :=
  fun w =>
    let r := waitForActionStatus action (p.client.waitEvents action w.plane).1
    { result := r.result
      world := { w with plane := (p.client.waitEvents action w.plane).2 }
      trace := [Event.await action.ID r] }

/-! ## resolver/resolver.go: unfreeze -/

/-- The constant `cloudInitContent`. -/
def cloudInitContent : Str := "ip addr add 0.0.0.0/32 dev eth0".toList

/-- The number a directory name counts for in the latest-dump selection: the closure
passed to `lo.Map` in `UnfreezeServer`. -/
def dirNameNum (item : Str) : Int :=
  if (Atoi item).ok then (Atoi item).num else 0

/-- Latest-dump selection of `UnfreezeServer` (the branch `len(serverDumpID) == 0`, after
the directory names are listed). -/
def latestDumpID (dirNames : List Str) : Except Err Str :=
  let dirNamesNums := dirNames.map dirNameNum
  if dirNamesNums.length = 0 then Except.error Err.noDumps
  else Except.ok (Itoa ((slicesSort dirNamesNums).getLastD 0))

/-- User data of `UnfreezeServer`: the variable `modifiedContent` passed as `UserData`. -/
def userData (floatingIPs : List FloatingIP) : Str :=
  let floatingIPsStrs := floatingIPs.map (fun item => item.IP ++ "/32".toList)
  if floatingIPsStrs.length > 0 then
    let modifiedContent :=
      stringsReplaceAll cloudInitContent "0.0.0.0/32".toList (stringsJoin floatingIPsStrs " ".toList)
    let modifiedContent := stringsJoin (stringsSplit modifiedContent " ".toList) ", ".toList
    "#cloud-config\nruncmd:\n- [".toList ++ modifiedContent ++ "]".toList
  else []

/-- The variable `publicNet` of `UnfreezeServer`. -/
def createPublicNet (n : ServerPublicNet) : ServerCreatePublicNet :=
  { EnableIPv4 := decide (n.IPv4.ID ≠ 0)
    IPv4 := if n.IPv4.ID ≠ 0 then some n.IPv4.ID else none
    EnableIPv6 := decide (n.IPv6.ID ≠ 0)
    IPv6 := if n.IPv6.ID ≠ 0 then some n.IPv6.ID else none }

/-- The options `UnfreezeServer` passes to `Server.Create`. -/
def createOpts (serverDump : ServerDump) (floatingIPs : List FloatingIP) : ServerCreateOpts :=
  { Name := serverDump.Server.Name
    ServerType := serverDump.Server.ServerTypeID
    Image := serverDump.Snapshot.ID
    SSHKeys := serverDump.SSHKeys.map (fun item => item.ID)
    Datacenter := serverDump.Server.DatacenterID
    UserData := userData floatingIPs
    Labels := serverDump.Server.Labels
    Volumes := serverDump.Server.Volumes
    Firewalls := serverDump.Server.PublicNet.Firewalls.map (fun item => item.ID)
    PlacementGroup := serverDump.Server.PlacementGroupID
    PublicNet := createPublicNet serverDump.Server.PublicNet }

/-- The method `ServerCreateOpts.Validate` of the client library, on the options
`UnfreezeServer` builds (server type, image and datacenter by id, `PublicNet` set, no
location, no networks, `StartAfterCreate` unset): the error message, `none` when the
options are valid. -/
def validateCreateOpts (opts : ServerCreateOpts) : Option Str :=
  if opts.Name.length = 0 then some "missing name".toList
  else if opts.ServerType = 0 then some "missing server type".toList
  else if opts.Image = 0 then some "missing image".toList
  else if !opts.PublicNet.EnableIPv4 && !opts.PublicNet.EnableIPv6 then
    some ("missing networks or StartAfterCreate == false when EnableIPv4 and " ++
      "EnableIPv6 is false").toList
  else none

/-- The method `Server.Create` of the client library with the checks that follow it in
`UnfreezeServer`: the options are validated first and an invalid option is returned as the
error, without a request; valid options are sent to the control plane. -/
def serverCreate {σ : Type} (p : resolverService σ) (opts : ServerCreateOpts) :
    M σ (Action × Server) :=
  match validateCreateOpts opts with
  | some msg => fail (Err.client msg)
  | none =>
    command (Cmd.createServer opts) none "could not create server".toList
      (p.client.serverCreate opts)

/-- The conversion `byte(n)` of an `int`. -/
def toByte (n : Int) : Nat := (n % 256).toNat

/-- First loop of `UnfreezeServer`: every floating IP of the dump is fetched again by id
and appended to `floatingIPs`. -/
def resolveFloatingIPs {σ : Type} (p : resolverService σ) :
    List FloatingIP → List FloatingIP → M σ (List FloatingIP)
  | [], floatingIPs => M.pure floatingIPs
  | fIP :: rest, floatingIPs => do
    let fIP ← query (Query.floatingIPGetByID fIP.ID) none "could not get floating ip".toList
      (p.client.floatingIPGetByID fIP.ID)
    resolveFloatingIPs p rest (floatingIPs ++ [fIP])

/-- Second loop of `UnfreezeServer`: each floating IP is assigned and awaited. -/
def assignFloatingIPs {σ : Type} (p : resolverService σ) (server : Server) :
    List FloatingIP → M σ Unit
  | [] => M.pure ()
  | fIP :: rest => do
    let action ← command (Cmd.assignFloatingIP fIP.ID) none "could not get floating ip".toList
      (p.client.floatingIPAssign fIP server)
    awaitAction p action
    assignFloatingIPs p server rest

/-- Third loop of `UnfreezeServer`: each private network whose address splits into four
parts at the dots is attached with the address built from the parts, and awaited. -/
def attachPrivateNets {σ : Type} (p : resolverService σ) (server : Server) :
    List ServerPrivateNet → M σ Unit
  | [] => M.pure ()
  | pNet :: rest =>
    let ipParts := stringsSplit pNet.IP ".".toList
    if ipParts.length ≠ 4 then attachPrivateNets p server rest
    else do
      let ip := ipParts.map (fun item => toByte (Atoi item).num)
      let action ← command (Cmd.attachToNetwork pNet.Network ip) none
        "could not attach server to private network".toList
        (p.client.serverAttachToNetwork server pNet.Network ip)
      awaitAction p action
      attachPrivateNets p server rest

/-- The dump id `UnfreezeServer` goes on with: the one given or, when it is empty, the
latest under the server's path. -/
def selectDumpID {σ : Type} (p : resolverService σ) (serverName serverDumpID : Str) : M σ Str :=
  fun w =>
    if serverDumpID.length = 0 then
      match GetDirectoriesNames w.disk (NewServerPath p.directory p.project serverName) with
      | Except.error e =>
        { result := Res.err (Err.wrap "failed to get directories".toList (Err.os e))
          world := w, trace := [] }
      | Except.ok dirNames =>
        match latestDumpID dirNames with
        | Except.error e => { result := Res.err e, world := w, trace := [] }
        | Except.ok id => { result := Res.ok id, world := w, trace := [] }
    else { result := Res.ok serverDumpID, world := w, trace := [] }

/-- The statements of `UnfreezeServer` from `os.Stat(path)` to `dump.LoadServer(path)`. -/
def statAndLoad {σ : Type} (p : resolverService σ) (path : Str) : M σ ServerDump :=
  fun w =>
    let statFailed : Option OsErr :=
      match w.disk.stat path with
      | some e => if e.notExist then none else some e
      | none => none
    match statFailed with
    | some e =>
      { result := Res.err (Err.wrap ("could not stat dir ".toList ++ path) (Err.os e))
        world := w, trace := [] }
    | none =>
      match LoadServer p.json w.disk path with
      | (_, some e) =>
        { result := Res.err (Err.wrap "failed to load server dump".toList e)
          world := w, trace := [Event.load path] }
      | (serverDump, none) => { result := Res.ok serverDump, world := w, trace := [Event.load path] }

/-- The method `UnfreezeServer`. -/
def UnfreezeServer {σ : Type} (p : resolverService σ) (serverName serverDumpID : Str) :
    M σ Unit := do
  let serverDumpID ← selectDumpID p serverName serverDumpID
  let path := NewServerDumpPath p.directory p.project serverName serverDumpID
  let serverDump ← statAndLoad p path
  let floatingIPs ← resolveFloatingIPs p serverDump.FloatingIPs []
  let opts := createOpts serverDump floatingIPs
  let createRes ← serverCreate p opts
  awaitAction p createRes.1
  assignFloatingIPs p createRes.2 floatingIPs
  attachPrivateNets p createRes.2 serverDump.Server.PrivateNet

/-! ## resolver/resolver.go: freeze -/

/-- The call `time.Now().UTC().Nanosecond()` at an instant given in nanoseconds since the
epoch: the nanosecond offset within the second, in `[0, 999999999]`. -/
def Nanosecond (now : Int) : Int := now % 1000000000

/-- The dump id `FreezeServer` and `CreateServerDump` generate at an instant:
`strconv.Itoa(time.Now().UTC().Nanosecond())`. -/
def newDumpID (now : Int) : Str := Itoa (Nanosecond now)

/-- The statements of `createServerDump` from `dump.EnsureHasDirectory` to
`dump.StoreServer`. -/
def ensureAndStore {σ : Type} (p : resolverService σ) (path : Str) (serverDump : ServerDump) :
    M σ ServerDump :=
  fun w =>
    match EnsureHasDirectory w.disk path with
    | (Except.error e, d) =>
      { result := Res.err (Err.wrap "failed to create directory".toList e)
        world := { w with disk := d }, trace := [] }
    | (Except.ok path, d) =>
      match StoreServer p.json d path serverDump with
      | (some e, d) =>
        { result := Res.err e, world := { w with disk := d }
          trace := [Event.store path serverDump] }
      | (none, d) =>
        { result := Res.ok serverDump, world := { w with disk := d }
          trace := [Event.store path serverDump] }

/-- The method `createServerDump`. -/
def createServerDump {σ : Type} (p : resolverService σ) (serverDumpID : Str) (svr : Server) :
    M σ ServerDump := do
  let fIPs ← query Query.floatingIPList (some "failed to list floating ips".toList)
    "could not list floating ips".toList p.client.floatingIPList
  let assignedFIPs := fIPs.filter (fun fIP =>
    match fIP.Server with
    | none => false
    | some id => decide (id = svr.ID))
  let sshKeys ← query Query.sshKeyList (some "failed to list ssh keys".toList)
    "could not list ssh keys".toList p.client.sshKeyList
  let srvImg ← command Cmd.createImage (some "failed to create image".toList)
    "could not create image".toList (p.client.serverCreateImage svr)
  awaitAction p srvImg.1
  let path := NewServerDumpPath p.directory p.project svr.Name serverDumpID
  ensureAndStore p path
    { Server := svr, FloatingIPs := assignedFIPs, SSHKeys := sshKeys, Snapshot := srvImg.2 }

/-- The loop of `FreezeServer` over the floating IPs of the dump: each is fetched by id,
unassigned and awaited. -/
def unassignFloatingIPs {σ : Type} (p : resolverService σ) : List FloatingIP → M σ Unit
  | [] => M.pure ()
  | fIP :: rest => do
    let assignedfIP ← query (Query.floatingIPGetByID fIP.ID) none
      "could not get floating ip".toList (p.client.floatingIPGetByID fIP.ID)
    let action ← command (Cmd.unassignFloatingIP assignedfIP.ID) none
      "could not unassign floating ip".toList (p.client.floatingIPUnassign assignedfIP)
    awaitAction p action
    unassignFloatingIPs p rest

/-- The two blocks of `FreezeServer` that unassign a primary IP when its recorded id is
not zero. -/
def unassignPrimaryIP {σ : Type} (p : resolverService σ) (statusMsg : Str) (id : Int) :
    M σ Unit :=
  if id ≠ 0 then do
    let action ← command (Cmd.unassignPrimaryIP id) none statusMsg
      (p.client.primaryIPUnassign id)
    awaitAction p action
  else M.pure ()

/-- The statements of `FreezeServer` after `createServerDump`: the floating IPs and the
primary IPs of the dump are unassigned, the server is deleted, the new id is returned. -/
def freezeTeardown {σ : Type} (p : resolverService σ) (newID : Str) (svr : Server)
    (serverDump : ServerDump) : M σ Str := do
  unassignFloatingIPs p serverDump.FloatingIPs
  unassignPrimaryIP p "could not unassign ipv4".toList serverDump.Server.PublicNet.IPv4.ID
  unassignPrimaryIP p "could not unassign ipv6".toList serverDump.Server.PublicNet.IPv6.ID
  let action ← command Cmd.deleteServer none "could not delete server".toList
    (p.client.serverDeleteWithResult svr)
  awaitAction p action
  M.pure newID

/-- The method `Server.GetByName` of the client library with the statements that follow
it in `FreezeServer`: for an empty name the library answers `(nil, nil, nil)` without a
request, and `defer resp.Body.Close()` dereferences the nil response; another name is
looked up on the control plane. -/
def serverGetByName {σ : Type} (p : resolverService σ) (serverName : Str) :
    M σ (Option Server) :=
  if serverName.length = 0 then panicNow
  else
    query (Query.serverGetByName serverName) none
      "could not get server by name".toList (p.client.serverGetByName serverName)

/-- The method `FreezeServer`, called at the instant `now`. -/
def FreezeServer {σ : Type} (p : resolverService σ) (now : Int) (serverName : Str) :
    M σ Str := do
  let newID := newDumpID now
  let svr ← serverGetByName p serverName
  match svr with
  | none => fail (Err.serverNotFound serverName)
  | some svr =>
    let action ← command Cmd.shutdown none "could not shutdown server".toList
      (p.client.serverShutdown svr)
    awaitAction p action
    let serverDump ← createServerDump p newID svr
    freezeTeardown p newID svr serverDump

/-! ## Vocabulary of the statements, and concrete worlds -/

deriving instance DecidableEq for Except

/-- JSON round trip of one sub-record: its encoding is a non-empty document that
`json.Indent` accepts, and the indented document decodes, into the zero value, to the
sub-record. -/
def RoundTrips {α : Type} (j : Json) (c : Codec α) (zero x : α) : Prop :=
  ∃ bb out, c.Marshal x = Except.ok bb ∧ bb.length ≠ 0 ∧ j.Indent bb = Except.ok out ∧
    c.Unmarshal out zero = (none, x)

/-- A dump directory that exists and in which files can be created and written. -/
def Fs.Writable (p : Fs) : Prop :=
  p.dirExists = true ∧ (∀ n, p.createErr n = none) ∧ (∀ n, p.writeErr n = none)

/-- The dump directory that exists, is empty and can be written. -/
def emptyDir : Fs :=
  { dirExists := true, file := fun _ => Opened.fails ErrNotExist
    createErr := fun _ => none, writeErr := fun _ => none }

/-- The directory that does not exist. -/
def absentDir : Fs :=
  { dirExists := false, file := fun _ => Opened.fails ErrNotExist
    createErr := fun _ => none, writeErr := fun _ => none }

/-- A not-found-style error: "no dumps found", "server with name ... not found", an error
of the operating system for a path that does not exist, or an error that wraps one of
these. -/
def Err.notFound : Err → Bool
  | Err.noDumps => true
  | Err.serverNotFound _ => true
  | Err.os e => e.notExist
  | Err.wrap _ cause => cause.notFound
  | _ => false

/-- A codec in which every value encodes to `null` and `null` leaves the target as it is. -/
def nullCodec (α : Type) : Codec α :=
  { Marshal := fun _ => Except.ok "null".toList, Unmarshal := fun _ t => (none, t) }

/-- A small JSON library: an image is encoded as its id in decimal, the other parts as
`null`, and `Indent` changes nothing. -/
def demoJson : Json :=
  { server := nullCodec Server
    floatingIPs := nullCodec (List FloatingIP)
    sshKeys := nullCodec (List SSHKey)
    snapshot :=
      { Marshal := fun img => Except.ok (Itoa img.ID)
        Unmarshal := fun bb t =>
          if (Atoi bb).ok then (none, { ID := (Atoi bb).num }) else (some "invalid".toList, t) }
    Indent := fun bb => Except.ok bb }

/-- Last element of a path, as `info.Name()` gives it. -/
def pathBase (path : Str) : Str := (stringsSplit path "/".toList).getLastD []

/-- The disk on which no path exists. -/
def absentDisk : Disk :=
  { walk := fun path => [{ name := pathBase path, isDir := false, err := some ErrNotExist }]
    stat := fun _ => some ErrNotExist
    mkdirErr := fun _ => none
    base := fun _ => absentDir }

/-- The disk on which every path is an existing, empty, writable directory. -/
def emptyDisk : Disk :=
  { walk := fun path => [{ name := pathBase path, isDir := true, err := none }]
    stat := fun _ => none
    mkdirErr := fun _ => none
    base := fun _ => emptyDir }

/-- An observation after which `waitForActionStatus` keeps polling: status running, or
status error with a message that contains "Unknown error". -/
def keepsWaiting (a : Action) : Bool :=
  decide (a.Status = ActionStatus.running) ||
    (decide (a.Status = ActionStatus.error) && stringsContains a.ErrorMessage "Unknown error".toList)

/-- Ticks of the `select` that deliver the given successful poll observations (status
code and action). -/
def polled (obs : List (Nat × Action)) : List WaitEvent :=
  obs.map (fun o => WaitEvent.tick (Reply.http o.1 o.2))

/-- The command of an event, if it is one. -/
def Event.toCmd : Event → Option Cmd
  | Event.command c _ => some c
  | _ => none

/-- The mutating remote commands of a trace, in order. -/
def cmds (t : List Event) : List Cmd := t.filterMap Event.toCmd

/-- The dump of an event, if it stores one. -/
def Event.toDump : Event → Option ServerDump
  | Event.store _ d => some d
  | _ => none

/-- The dumps a trace stores, in order. -/
def dumps (t : List Event) : List ServerDump := t.filterMap Event.toDump

/-- Whether the step of an event succeeded: a remote call answered without error and with
a status of at most 201, a wait returned `nil`. -/
def Event.good : Event → Bool
  | Event.command _ ok => ok
  | Event.query _ ok => ok
  | Event.await _ r => decide (r.result = Res.ok ())
  | Event.load _ => true
  | Event.store _ _ => true

/-- The commands of a freeze after the image is created, for a dump: the floating IPs in
dump order, the primary IPv4 and IPv6 when their recorded id is not zero, the deletion. -/
def teardownCmds (d : ServerDump) : List Cmd :=
  d.FloatingIPs.map (fun f => Cmd.unassignFloatingIP f.ID) ++
    ((if d.Server.PublicNet.IPv4.ID ≠ 0 then [Cmd.unassignPrimaryIP d.Server.PublicNet.IPv4.ID]
      else []) ++
    ((if d.Server.PublicNet.IPv6.ID ≠ 0 then [Cmd.unassignPrimaryIP d.Server.PublicNet.IPv6.ID]
      else []) ++ [Cmd.deleteServer]))

/-- The whole command sequence of a freeze for a dump. -/
def freezeCmds (d : ServerDump) : List Cmd :=
  Cmd.shutdown :: Cmd.createImage :: teardownCmds d

/-- A control plane whose get-floating-IP-by-id answers, when it answers with a status of
at most 201, with the floating IP of that id. -/
def GetsByID {σ : Type} (c : Client σ) : Prop :=
  ∀ (id : Int) (s : σ) (code : Nat) (v : FloatingIP),
    (c.floatingIPGetByID id s).1 = Reply.http code v → code ≤ 201 → v.ID = id

/-- A running action. -/
def demoAction : Action := { ID := 1, Status := ActionStatus.running, Progress := 0, ErrorMessage := [] }

/-- A server with a public IPv4 (primary IP 11) and no IPv6. -/
def demoServer : Server :=
  { ID := 7, Name := "web".toList, ServerTypeID := 1, DatacenterID := 2, PlacementGroupID := none
    Labels := [], Volumes := [], PrivateNet := []
    PublicNet := { IPv4 := ⟨11⟩, IPv6 := ⟨0⟩, Firewalls := [] } }

/-- A control plane without state: one server that has two of the three floating IPs of the
project; every call answers 200 or 201, every action is reported successful at the first
poll. -/
def demoClient : Client Unit :=
  { serverGetByName := fun _ s => (Reply.http 200 (some demoServer), s)
    serverShutdown := fun _ s => (Reply.http 201 demoAction, s)
    serverCreateImage := fun _ s => (Reply.http 201 (demoAction, { ID := 5 }), s)
    serverDeleteWithResult := fun _ s => (Reply.http 200 demoAction, s)
    serverCreate := fun _ s => (Reply.http 201 (demoAction, demoServer), s)
    serverAttachToNetwork := fun _ _ _ s => (Reply.http 201 demoAction, s)
    floatingIPList := fun s =>
      (Reply.http 200
        [{ ID := 21, IP := "10.0.0.5".toList, Server := some 7 },
         { ID := 22, IP := "10.0.0.9".toList, Server := some 8 },
         { ID := 23, IP := "10.0.0.6".toList, Server := some 7 }], s)
    floatingIPGetByID := fun id s =>
      (Reply.http 200 { ID := id, IP := "10.0.0.5".toList, Server := some 7 }, s)
    floatingIPUnassign := fun _ s => (Reply.http 201 demoAction, s)
    floatingIPAssign := fun _ _ s => (Reply.http 201 demoAction, s)
    primaryIPUnassign := fun _ s => (Reply.http 201 demoAction, s)
    sshKeyList := fun s => (Reply.http 200 [{ ID := 31 }], s)
    waitEvents := fun a s =>
      ([WaitEvent.tick (Reply.http 200 { a with Status := ActionStatus.success })], s) }

/-- A resolver service on `demoClient`, with the default directory. -/
def demoService : resolverService Unit :=
  { project := "proj".toList, directory := [], client := demoClient, json := demoJson }

/-- Code whose runs issue a prefix of the commands `exp`; a run that returns a value has
issued exactly `exp`, every step of it succeeded, and the value and the dumps it stored
satisfy `Q`; a run that does not return a value stored no dump. -/
def Phase {σ α : Type} (exp : List Cmd) (Q : α → List ServerDump → Prop) (m : M σ α) : Prop :=
  ∀ w, cmds (m w).trace <+: exp ∧ ((∀ a, (m w).result ≠ Res.ok a) → dumps (m w).trace = []) ∧
    ∀ a, (m w).result = Res.ok a →
      cmds (m w).trace = exp ∧ (∀ e ∈ (m w).trace, e.good = true) ∧ Q a (dumps (m w).trace)

/-- Code whose runs that do not return a value contain a failed step. -/
def Loud {σ α : Type} (m : M σ α) : Prop :=
  ∀ w, (∀ a, (m w).result ≠ Res.ok a) → ∃ e ∈ (m w).trace, e.good = false

/-- Code whose runs that do not return a value contain a failed step or have not issued
all of `exp`. -/
def Tight {σ α : Type} (exp : List Cmd) (m : M σ α) : Prop :=
  ∀ w, (∀ a, (m w).result ≠ Res.ok a) →
    (∃ e ∈ (m w).trace, e.good = false) ∨ cmds (m w).trace ≠ exp

/-- A trace in which every step before a delete-server command succeeded. -/
def SafeDelete (t : List Event) : Prop :=
  ∀ pre post ok, t = pre ++ Event.command Cmd.deleteServer ok :: post → ∀ e ∈ pre, e.good = true

/-- Code all of whose runs have a trace with `SafeDelete`. -/
def Safe {σ α : Type} (m : M σ α) : Prop := ∀ w, SafeDelete (m w).trace

/-- What a run of `FreezeServer`, or of a last part of it before which the commands `pre`
are still to be expected, does: its commands are a prefix of the expected ones, it returns
the new id exactly when it issued all of them with every step succeeding, and no step
before a delete-server command failed. -/
def FreezeSpec (newID : Str) (pre : List Cmd) (t : List Event) (r : Res Str) : Prop :=
  (match (dumps t).head? with
    | none => cmds t <+: pre ++ [Cmd.createImage]
    | some d => cmds t <+: pre ++ Cmd.createImage :: teardownCmds d) ∧
  (r = Res.ok newID ↔
    ∃ d, (dumps t).head? = some d ∧ cmds t = pre ++ Cmd.createImage :: teardownCmds d ∧
      ∀ e ∈ t, e.good = true) ∧
  (∀ id, r = Res.ok id → id = newID) ∧
  SafeDelete t

/-- The attach-to-network command the third loop of `UnfreezeServer` issues for one
recorded private network, `none` when the loop skips it (`continue`). -/
def attachRequest (pNet : ServerPrivateNet) : Option Cmd :=
  let ipParts := stringsSplit pNet.IP ".".toList
  if ipParts.length ≠ 4 then none
  else some (Cmd.attachToNetwork pNet.Network (ipParts.map (fun item => toByte (Atoi item).num)))

/-- The attach-to-network commands of a list of recorded private networks, in order. -/
def attachCmds (nets : List ServerPrivateNet) : List Cmd := nets.filterMap attachRequest

/-- Whether a command is an attach-to-network request. -/
def Cmd.isAttach : Cmd → Bool
  | Cmd.attachToNetwork _ _ => true
  | _ => false

/-- The attach-to-network requests of a trace, in order. -/
def attaches (t : List Event) : List Cmd := (cmds t).filter Cmd.isAttach

/-- A run whose attach-to-network requests are a prefix of `exp`, and all of `exp` when it
returns nil. -/
def AttachSpec {σ : Type} (exp : List Cmd) (r : Run σ Unit) : Prop :=
  attaches r.trace <+: exp ∧ (r.result = Res.ok () → attaches r.trace = exp)

/-- A server recorded with four private networks: a well-formed address, an address whose
last part is not a number, an address of three parts, and an address whose last part is
above 255. -/
def netServer : Server :=
  { demoServer with
    PrivateNet := [{ Network := 5, IP := "10.0.0.2".toList },
                   { Network := 6, IP := "10.0.0.x".toList },
                   { Network := 7, IP := "10.0.1".toList },
                   { Network := 8, IP := "10.0.0.256".toList }] }

/-- A resolver service on `demoClient` whose JSON library decodes every `server.json` to
`netServer`. -/
def netService : resolverService Unit :=
  { demoService with
    json := { demoJson with
      server := { Marshal := fun _ => Except.ok "null".toList
                  Unmarshal := fun _ _ => (none, netServer) } } }

/-- The disk on which every path is a directory that holds a `server.json` and a
`snapshot.json` with the image id 5. -/
def netDisk : Disk :=
  { emptyDisk with
    base := fun _ =>
      { emptyDir with
        file := fun n =>
          if n = "server.json".toList then Opened.bytes "null".toList
          else if n = "snapshot.json".toList then Opened.bytes "5".toList
          else Opened.fails ErrNotExist } }

/-- The error of a directory that may not be written. -/
def permissionDenied : OsErr := { text := "permission denied".toList, notExist := false }

/-- The error of a full device. -/
def noSpace : OsErr := { text := "no space left on device".toList, notExist := false }

/-- An existing, empty dump directory in which `Create` fails. -/
def readOnlyDir : Fs := { emptyDir with createErr := fun _ => some permissionDenied }

/-- An existing, empty dump directory in which `Write` fails. -/
def fullDir : Fs := { emptyDir with writeErr := fun _ => some noSpace }

/-- The JSON library `demoJson` with an `Indent` that rejects every document. -/
def badIndentJson : Json :=
  { demoJson with Indent := fun _ => Except.error "invalid character".toList }

/-- The disk on which every path is an existing, empty directory in which `Create` fails. -/
def readOnlyDisk : Disk := { emptyDisk with base := fun _ => readOnlyDir }

/-- A control plane like `demoClient` on which every action fails with the message
"boom". -/
def boomClient : Client Unit :=
  { demoClient with
    waitEvents := fun a s =>
      ([WaitEvent.tick (Reply.http 200
          { a with Status := ActionStatus.error, ErrorMessage := "boom".toList })], s) }

/-- A resolver service on `boomClient`. -/
def boomService : resolverService Unit :=
  { project := "proj".toList, directory := [], client := boomClient, json := demoJson }

/-! ### The freeze the specification describes, read off the control plane -/

/-- What the specification says of a run: the commands issued, the dumps stored, the
world left behind, and the value returned when every step succeeded (`none` when the run
stopped at a step). -/
structure SpecRun (σ α : Type) where
  cmds : List Cmd
  dumps : List ServerDump
  world : World σ
  val : Option α

/-- One step after another: the second step happens only when the first succeeded. -/
def SpecRun.andThen {σ α β : Type} (s : SpecRun σ α) (k : α → World σ → SpecRun σ β) :
    SpecRun σ β :=
  match s.val with
  | none => { cmds := s.cmds, dumps := s.dumps, world := s.world, val := none }
  | some a =>
    { cmds := s.cmds ++ (k a s.world).cmds, dumps := s.dumps ++ (k a s.world).dumps
      world := (k a s.world).world, val := (k a s.world).val }

/-- The value of an answer of the control plane that counts as a success: no error and a
status of at most 201. -/
def Reply.accepted {α : Type} : Reply α → Option α
  | Reply.fail _ => none
  | Reply.http code a => if code ≤ 201 then some a else none

/-- Whether the polls of an action end in success: each poll is answered without error
and with a status of at most 201, and reports success, or reports an observation after
which the wait goes on and the polls after it end in success. -/
def succeedsIn : List WaitEvent → Bool
  | WaitEvent.tick (Reply.http code a) :: rest =>
    decide (code ≤ 201) &&
      (decide (a.Status = ActionStatus.success) || (keepsWaiting a && succeedsIn rest))
  | _ => false

/-- Whether an awaited action succeeds: it is already successful, or its polls end in
success. -/
def actionSucceeds (action : Action) (events : List WaitEvent) : Bool :=
  decide (action.Status = ActionStatus.success) || succeedsIn events

/-- A step that succeeds with a value and touches nothing. -/
def specDone {σ α : Type} (a : α) (w : World σ) : SpecRun σ α :=
  { cmds := [], dumps := [], world := w, val := some a }

/-- The run stops without touching anything. -/
def specStop {σ α : Type} (w : World σ) : SpecRun σ α :=
  { cmds := [], dumps := [], world := w, val := none }

/-- A read of the control plane: it succeeds with the value of an accepted answer. -/
def specRead {σ α : Type} (call : σ → Reply α × σ) (w : World σ) : SpecRun σ α :=
  { cmds := [], dumps := [], world := { w with plane := (call w.plane).2 }
    val := (call w.plane).1.accepted }

/-- A mutating command sent to the control plane: it is issued, and succeeds with the
value of an accepted answer. -/
def specIssue {σ α : Type} (c : Cmd) (call : σ → Reply α × σ) (w : World σ) : SpecRun σ α :=
  { cmds := [c], dumps := [], world := { w with plane := (call w.plane).2 }
    val := (call w.plane).1.accepted }

/-- The wait for an action: it succeeds when the action succeeds on the control plane. -/
def specAwait {σ : Type} (cl : Client σ) (action : Action) (w : World σ) : SpecRun σ Unit :=
  { cmds := [], dumps := [], world := { w with plane := (cl.waitEvents action w.plane).2 }
    val := if actionSucceeds action (cl.waitEvents action w.plane).1 then some () else none }

/-- The dump is written to its directory, which is created when needed. -/
def specStore {σ : Type} (p : resolverService σ) (path : Str) (d : ServerDump) (w : World σ) :
    SpecRun σ ServerDump :=
  match EnsureHasDirectory w.disk path with
  | (Except.error _, disk) =>
    { cmds := [], dumps := [], world := { w with disk := disk }, val := none }
  | (Except.ok path, disk) =>
    { cmds := [], dumps := [d]
      world := { w with disk := (StoreServer p.json disk path d).2 }
      val := match (StoreServer p.json disk path d).1 with
        | none => some d
        | some _ => none }

/-- The dump of a server is captured: the floating IPs assigned to the server, among
those the control plane lists, and the SSH keys are read, an image of the server is
created and awaited, and the dump is stored. -/
def specCapture {σ : Type} (p : resolverService σ) (dumpID : Str) (svr : Server) (w : World σ) :
    SpecRun σ ServerDump :=
  (specRead p.client.floatingIPList w).andThen fun fIPs w =>
  (specRead p.client.sshKeyList w).andThen fun sshKeys w =>
  (specIssue Cmd.createImage (p.client.serverCreateImage svr) w).andThen fun img w =>
  (specAwait p.client img.1 w).andThen fun _ w =>
  specStore p (NewServerDumpPath p.directory p.project svr.Name dumpID)
    { Server := svr
      FloatingIPs := fIPs.filter (fun f => decide (f.Server = some svr.ID))
      SSHKeys := sshKeys, Snapshot := img.2 } w

/-- The floating IPs are unassigned in order: each is looked up by id, its unassignment
is issued and awaited. -/
def specUnassignAll {σ : Type} (cl : Client σ) : List FloatingIP → World σ → SpecRun σ Unit
  | [], w => specDone () w
  | f :: rest, w =>
    (specRead (cl.floatingIPGetByID f.ID) w).andThen fun found w =>
    (specIssue (Cmd.unassignFloatingIP f.ID) (cl.floatingIPUnassign found) w).andThen
      fun action w =>
    (specAwait cl action w).andThen fun _ w =>
    specUnassignAll cl rest w

/-- A primary IP is unassigned only when its recorded id is not zero: the unassignment is
issued and awaited. -/
def specUnassignPrimary {σ : Type} (cl : Client σ) (id : Int) (w : World σ) : SpecRun σ Unit :=
  if id = 0 then specDone () w
  else
    (specIssue (Cmd.unassignPrimaryIP id) (cl.primaryIPUnassign id) w).andThen fun action w =>
    specAwait cl action w

/-- The freeze of the specification: the server is looked up by its name, shut down, its
dump is captured, the floating IPs of the dump are unassigned in dump order, then the
primary IPv4 and the primary IPv6, the server is deleted, and the new dump id is returned;
every command is awaited, and the run stops at the first step that does not succeed. -/
def specFreeze {σ : Type} (p : resolverService σ) (now : Int) (serverName : Str) (w : World σ) :
    SpecRun σ Str :=
  if serverName = [] then specStop w
  else
    (specRead (p.client.serverGetByName serverName) w).andThen fun found w =>
    match found with
    | none => specStop w
    | some svr =>
      (specIssue Cmd.shutdown (p.client.serverShutdown svr) w).andThen fun action w =>
      (specAwait p.client action w).andThen fun _ w =>
      (specCapture p (newDumpID now) svr w).andThen fun d w =>
      (specUnassignAll p.client d.FloatingIPs w).andThen fun _ w =>
      (specUnassignPrimary p.client d.Server.PublicNet.IPv4.ID w).andThen fun _ w =>
      (specUnassignPrimary p.client d.Server.PublicNet.IPv6.ID w).andThen fun _ w =>
      (specIssue Cmd.deleteServer (p.client.serverDeleteWithResult svr) w).andThen
        fun action w =>
      (specAwait p.client action w).andThen fun _ w =>
      specDone (newDumpID now) w

/-- A run of the code agrees with a run of the specification: the same commands in the
same order, the same dumps, the same world left behind, and the code returns a value
exactly when the specification does, the same one. -/
def Matches {σ α : Type} (r : Run σ α) (s : SpecRun σ α) : Prop :=
  cmds r.trace = s.cmds ∧ dumps r.trace = s.dumps ∧ r.world = s.world ∧
    ∀ a, r.result = Res.ok a ↔ s.val = some a

/-! ## Theorems -/

/-! ### Numbers and strings -/

theorem digitsVal_append (ds : Str) (c : Char) :
    digitsVal (ds ++ [c]) = digitsVal ds * 10 + digitVal c := by
  simp [digitsVal, List.foldl_append]

theorem digitChar_isDigit (k : Nat) (hk : k < 10) :
    (Nat.digitChar k).isDigit = true ∧ digitVal (Nat.digitChar k) = k := by
  interval_cases k <;> decide

theorem toDigitsCore_spec (fuel : Nat) : ∀ (n : Nat) (acc : Str), n < fuel →
    ∃ ds : Str, Nat.toDigitsCore 10 fuel n acc = ds ++ acc ∧ ds ≠ [] ∧
      (∀ c ∈ ds, c.isDigit = true) ∧ digitsVal ds = n := by
  induction fuel with
  | zero => intro n acc h; omega
  | succ fuel ih =>
    intro n acc h
    have hd := digitChar_isDigit (n % 10) (Nat.mod_lt _ (by decide))
    by_cases h0 : n / 10 = 0
    · refine ⟨[Nat.digitChar (n % 10)], ?_, by simp, ?_, ?_⟩
      · simp [Nat.toDigitsCore, h0]
      · intro c hc; simp at hc; subst hc; exact hd.1
      · have h10 : n % 10 = n := by omega
        simp only [digitsVal, List.foldl, Nat.zero_mul, Nat.zero_add]
        rw [hd.2, h10]
    · obtain ⟨ds, h1, h2, h3, h4⟩ := ih (n / 10) (Nat.digitChar (n % 10) :: acc) (by omega)
      refine ⟨ds ++ [Nat.digitChar (n % 10)], ?_, by simp, ?_, ?_⟩
      · simp [Nat.toDigitsCore, h0, h1]
      · intro c hc
        rcases List.mem_append.1 hc with hc | hc
        · exact h3 c hc
        · simp at hc; subst hc; exact hd.1
      · rw [digitsVal_append, h4, hd.2]; omega

theorem toDigits_spec (n : Nat) :
    Nat.toDigits 10 n ≠ [] ∧ (∀ c ∈ Nat.toDigits 10 n, c.isDigit = true) ∧
      digitsVal (Nat.toDigits 10 n) = n := by
  obtain ⟨ds, h1, h2, h3, h4⟩ := toDigitsCore_spec (n + 1) n [] (by omega)
  simp only [List.append_nil] at h1
  simp only [Nat.toDigits, h1]
  exact ⟨h2, h3, h4⟩

theorem isDigits_iff (ds : Str) : isDigits ds = true ↔ ds ≠ [] ∧ ∀ c ∈ ds, c.isDigit = true := by
  cases ds <;> simp [isDigits]

theorem Atoi_of_digits (ds : Str) (h : isDigits ds = true) :
    Atoi ds = atoiRange false (digitsVal ds) := by
  obtain ⟨_, hall⟩ := (isDigits_iff ds).1 h
  unfold Atoi
  split
  · exact absurd (hall '-' (by simp)) (by decide)
  · exact absurd (hall '+' (by simp)) (by decide)
  · simp [h]

/-- Parsing what `Itoa` prints gives the number back, for every number of the `int` range. -/
theorem Atoi_Itoa (m : Int) (h1 : -(2 ^ 63) ≤ m) (h2 : m < 2 ^ 63) :
    Atoi (Itoa m) = { num := m, ok := true } := by
  unfold Itoa
  by_cases hm : m < 0
  · obtain ⟨a1, a2, a3⟩ := toDigits_spec m.natAbs
    have hd : isDigits (Nat.toDigits 10 m.natAbs) = true := (isDigits_iff _).2 ⟨a1, a2⟩
    simp only [hm, if_true, Atoi, hd, a3, atoiRange]
    have hle : ¬ (m.natAbs > 2 ^ 63) := by omega
    simp only [hle, if_false, if_true]
    have h3 : -((m.natAbs : Nat) : Int) = m := by omega
    rw [h3]
  · obtain ⟨a1, a2, a3⟩ := toDigits_spec m.toNat
    have hd : isDigits (Nat.toDigits 10 m.toNat) = true := (isDigits_iff _).2 ⟨a1, a2⟩
    simp only [hm, if_false]
    rw [Atoi_of_digits _ hd, a3]
    have hle : ¬ (m.toNat ≥ 2 ^ 63) := by omega
    simp only [atoiRange, hle, if_false]
    have h3 : ((m.toNat : Nat) : Int) = m := by omega
    simp [h3]

theorem atoiRange_bounds (neg : Bool) (v : Nat) (h : (atoiRange neg v).ok = true) :
    -(2 ^ 63) ≤ (atoiRange neg v).num ∧ (atoiRange neg v).num < 2 ^ 63 := by
  unfold atoiRange at h ⊢
  split_ifs at h ⊢ <;> (simp only; omega)

theorem Atoi_range (s : Str) (h : (Atoi s).ok = true) :
    -(2 ^ 63) ≤ (Atoi s).num ∧ (Atoi s).num < 2 ^ 63 := by
  unfold Atoi at h ⊢
  split at h <;> split_ifs at h ⊢ <;> exact atoiRange_bounds _ _ h

/-- The last element of a sorted slice is one of its elements and the largest. -/
theorem slicesSort_last (xs : List Int) (h : xs ≠ []) :
    (slicesSort xs).getLastD 0 ∈ xs ∧ ∀ x ∈ xs, x ≤ (slicesSort xs).getLastD 0 := by
  have hperm : List.Perm (slicesSort xs) xs := List.perm_insertionSort _ xs
  have hsorted : (slicesSort xs).Sorted (· ≤ ·) := List.sorted_insertionSort _ xs
  have hne : slicesSort xs ≠ [] := fun h0 => h (by simpa [h0] using hperm.symm)
  rcases List.eq_nil_or_concat (slicesSort xs) with h0 | ⟨ys, a, hya⟩
  · exact absurd h0 hne
  · rw [hya, List.concat_eq_append] at hsorted hperm
    rw [hya, List.concat_eq_append, List.getLastD_concat]
    have hle : ∀ y ∈ ys, y ≤ a := by
      intro y hy
      exact (List.pairwise_append.1 hsorted).2.2 y hy a (by simp)
    refine ⟨hperm.subset (by simp), ?_⟩
    intro x hx
    have hx2 : x ∈ ys ++ [a] := hperm.symm.subset hx
    rcases List.mem_append.1 hx2 with hx3 | hx3
    · exact hle x hx3
    · simp at hx3; omega

theorem dirNameNum_of_ok (n : Str) (h : (Atoi n).ok = true) : dirNameNum n = (Atoi n).num := by
  simp [dirNameNum, h]

theorem dirNameNum_of_not_ok (n : Str) (h : (Atoi n).ok = false) : dirNameNum n = 0 := by
  simp [dirNameNum, h]

theorem splitScan_space_word (w : Str) (hw : ' ' ∉ w) : ∀ (cur rest : Str),
    splitScan [' '] 0 cur (w ++ ' ' :: rest) = (cur.reverse ++ w) :: splitScan [' '] 0 [] rest := by
  induction w with
  | nil => intro cur rest; simp [splitScan]
  | cons c w ih =>
    intro cur rest
    have hc : c ≠ ' ' := fun h => hw (by simp [h])
    have hw2 : ' ' ∉ w := fun h => hw (by simp [h])
    simp [splitScan, hc, Ne.symm hc, ih hw2]

theorem splitScan_joined (ws : List Str) (hne : ws ≠ []) (hws : ∀ w ∈ ws, ' ' ∉ w) (rest : Str) :
    splitScan [' '] 0 [] (stringsJoin ws [' '] ++ ' ' :: rest) = ws ++ splitScan [' '] 0 [] rest := by
  induction ws with
  | nil => exact absurd rfl hne
  | cons w t ih =>
    cases t with
    | nil =>
      simp only [stringsJoin, List.intercalate, List.intersperse, List.flatten, List.append_nil]
      rw [splitScan_space_word w (hws w (by simp))]
      simp
    | cons w2 t2 =>
      have h2 := ih (by simp) (fun x hx => hws x (by simp [hx]))
      simp only [stringsJoin, List.intercalate, List.intersperse, List.flatten] at h2 ⊢
      simp only [List.append_assoc, List.singleton_append, List.cons_append, List.nil_append]
      rw [splitScan_space_word w (hws w (by simp))]
      simp only [List.append_assoc, List.singleton_append, List.cons_append, List.nil_append] at h2
      rw [h2]
      simp

theorem replace_template (new : Str) :
    stringsReplaceAll cloudInitContent "0.0.0.0/32".toList new
      = "ip addr add ".toList ++ new ++ " dev eth0".toList := by
  simp [stringsReplaceAll, replaceScan, cloudInitContent]

/-! ### The dump directory -/

theorem store_ok {α : Type} (j : Json) (p : Fs) (name : Str) (c : Codec α) (zero x : α)
    (hp : p.Writable) (hr : RoundTrips j c zero x) :
    ∃ out, c.Unmarshal out zero = (none, x) ∧
      (store j p name c.Marshal x).1 = none ∧
      (store j p name c.Marshal x).2.Writable ∧
      (store j p name c.Marshal x).2.file =
        fun n => if n = name ++ ".json".toList then Opened.bytes out else p.file n := by
  obtain ⟨bb, out, h1, h2, h3, h4⟩ := hr
  obtain ⟨e1, e2, e3⟩ := hp
  refine ⟨out, h4, ?_, ?_, ?_⟩
  · simp [store, storePart, h1, h2, h3, Fs.Create, Fs.Write, e1, e2, e3]
  · simp [store, storePart, h1, h2, h3, Fs.Create, Fs.Write, e1, e2, e3, Fs.Writable]
  · simp only [store, storePart, h1, h2, h3, Fs.Create, Fs.Write, e1, e2, e3, if_true, if_false]
    funext n
    by_cases hn : n = name ++ ".json".toList
    · simp only [hn, if_true]
    · simp only [hn, if_false]

theorem load_ok {α : Type} (p : Fs) (name : Str) (unmarshal : Str → α → Option Str × α)
    (zero x : α) (out : Str) (hp : p.dirExists = true)
    (hf : p.file (name ++ ".json".toList) = Opened.bytes out)
    (hu : unmarshal out zero = (none, x)) :
    load p none name unmarshal zero = (none, x) := by
  simp only [load, loadPart, Fs.Open, hp, hf, hu, if_true]


/-! ### Runs -/

theorem bind_trace_ok {σ α β : Type} (m : M σ α) (f : α → M σ β) (w : World σ) (a : α)
    (h : (m w).result = Res.ok a) :
    (M.bind m f w).trace = (m w).trace ++ (f a (m w).world).trace := by
  unfold M.bind
  rcases hm : m w with ⟨r, w1, t1⟩
  rw [hm] at h
  simp only at h
  subst h
  rfl

theorem bind_result_ok {σ α β : Type} (m : M σ α) (f : α → M σ β) (w : World σ) (a : α)
    (h : (m w).result = Res.ok a) :
    (M.bind m f w).result = (f a (m w).world).result := by
  unfold M.bind
  rcases hm : m w with ⟨r, w1, t1⟩
  rw [hm] at h
  simp only at h
  subst h
  rfl

theorem bind_not_ok {σ α β : Type} (m : M σ α) (f : α → M σ β) (w : World σ)
    (h : ∀ a, (m w).result ≠ Res.ok a) :
    (M.bind m f w).trace = (m w).trace ∧ (M.bind m f w).world = (m w).world ∧
      ∀ b, (M.bind m f w).result ≠ Res.ok b := by
  unfold M.bind
  rcases hm : m w with ⟨r, w1, t1⟩
  rw [hm] at h
  cases r with
  | ok a => exact absurd rfl (h a)
  | err e => exact ⟨rfl, rfl, fun b hb => by cases hb⟩
  | panic => exact ⟨rfl, rfl, fun b hb => by cases hb⟩
  | blocked => exact ⟨rfl, rfl, fun b hb => by cases hb⟩

theorem bind_trace_prefix {σ α β : Type} (m : M σ α) (f : α → M σ β) (w : World σ) :
    (m w).trace <+: (M.bind m f w).trace := by
  by_cases h : ∃ a, (m w).result = Res.ok a
  · obtain ⟨a, ha⟩ := h
    rw [bind_trace_ok m f w a ha]
    exact List.prefix_append _ _
  · rw [(bind_not_ok m f w (fun a ha => h ⟨a, ha⟩)).1]

/-! ### Phases of a run -/

theorem cmds_append (a b : List Event) : cmds (a ++ b) = cmds a ++ cmds b := by
  simp [cmds, List.filterMap_append]

theorem dumps_append (a b : List Event) : dumps (a ++ b) = dumps a ++ dumps b := by
  simp [dumps, List.filterMap_append]

theorem mem_cmds_of_mem (t : List Event) (c : Cmd) (ok : Bool) (h : Event.command c ok ∈ t) :
    c ∈ cmds t := by
  simp only [cmds, List.mem_filterMap]
  exact ⟨_, h, rfl⟩

theorem phase_bind {σ α β : Type} {d e : List Cmd} {P : α → List ServerDump → Prop}
    {Q : β → List ServerDump → Prop} {m : M σ α} {f : α → M σ β}
    (hm : Phase d P m) (hq : ∀ a ds, P a ds → ds = [])
    (hf : ∀ a, P a [] → Phase e Q (f a)) : Phase (d ++ e) Q (M.bind m f) := by
  intro w
  obtain ⟨hp, hd, hok⟩ := hm w
  by_cases h : ∃ a, (m w).result = Res.ok a
  · obtain ⟨a, ha⟩ := h
    obtain ⟨hc1, hg1, hq1⟩ := hok a ha
    have hds := hq a _ hq1
    rw [hds] at hq1
    obtain ⟨hp2, hd2, hok2⟩ := hf a hq1 (m w).world
    rw [bind_trace_ok m f w a ha, bind_result_ok m f w a ha, cmds_append, dumps_append, hc1, hds]
    refine ⟨(List.prefix_append_right_inj d).2 hp2, ?_, ?_⟩
    · intro hne; simpa using hd2 hne
    · intro b hb
      obtain ⟨hc2, hg2, hq2⟩ := hok2 b hb
      refine ⟨by rw [hc2], ?_, by simpa using hq2⟩
      intro e he
      rcases List.mem_append.1 he with h1 | h1
      · exact hg1 e h1
      · exact hg2 e h1
  · have hno : ∀ a, (m w).result ≠ Res.ok a := fun a ha => h ⟨a, ha⟩
    obtain ⟨ht, -, hr⟩ := bind_not_ok m f w hno
    rw [ht]
    refine ⟨hp.trans (List.prefix_append _ _), fun _ => hd hno, ?_⟩
    intro b hb
    exact absurd hb (hr b)

theorem phase_mono {σ α : Type} {exp : List Cmd} {Q1 Q2 : α → List ServerDump → Prop}
    {m : M σ α} (hm : Phase exp Q1 m) (h : ∀ a ds, Q1 a ds → Q2 a ds) : Phase exp Q2 m := by
  intro w
  obtain ⟨hp, hd, hok⟩ := hm w
  exact ⟨hp, hd, fun a ha => ⟨(hok a ha).1, (hok a ha).2.1, h _ _ (hok a ha).2.2⟩⟩

theorem loud_bind {σ α β : Type} {m : M σ α} {f : α → M σ β}
    (hm : Loud m) (hf : ∀ a, Loud (f a)) : Loud (M.bind m f) := by
  intro w hno
  by_cases h : ∃ a, (m w).result = Res.ok a
  · obtain ⟨a, ha⟩ := h
    rw [bind_trace_ok m f w a ha]
    have hno2 : ∀ b, (f a (m w).world).result ≠ Res.ok b := by
      intro b hb
      exact hno b (by rw [bind_result_ok m f w a ha]; exact hb)
    obtain ⟨e, he, hbad⟩ := hf a _ hno2
    exact ⟨e, List.mem_append_right _ he, hbad⟩
  · have hno1 : ∀ a, (m w).result ≠ Res.ok a := fun a ha => h ⟨a, ha⟩
    rw [(bind_not_ok m f w hno1).1]
    exact hm w hno1

theorem loud_tight {σ α : Type} {m : M σ α} (exp : List Cmd) (hm : Loud m) : Tight exp m :=
  fun w hno => Or.inl (hm w hno)

theorem tight_bind {σ α β : Type} {e1 e2 : List Cmd} {Q1 : α → List ServerDump → Prop}
    {m : M σ α} {f : α → M σ β}
    (hm : Phase e1 Q1 m) (hl : e2 ≠ [] ∨ Loud m)
    (hf : ∀ a ds, Q1 a ds → Tight e2 (f a)) : Tight (e1 ++ e2) (M.bind m f) := by
  intro w hno
  obtain ⟨hp, -, hok⟩ := hm w
  by_cases h : ∃ a, (m w).result = Res.ok a
  · obtain ⟨a, ha⟩ := h
    obtain ⟨hc1, -, hq1⟩ := hok a ha
    rw [bind_trace_ok m f w a ha, cmds_append, hc1]
    have hno2 : ∀ b, (f a (m w).world).result ≠ Res.ok b := by
      intro b hb
      exact hno b (by rw [bind_result_ok m f w a ha]; exact hb)
    rcases hf a _ hq1 _ hno2 with ⟨e, he, hbad⟩ | hne
    · exact Or.inl ⟨e, List.mem_append_right _ he, hbad⟩
    · exact Or.inr (fun heq => hne (List.append_cancel_left heq))
  · have hno1 : ∀ a, (m w).result ≠ Res.ok a := fun a ha => h ⟨a, ha⟩
    rw [(bind_not_ok m f w hno1).1]
    rcases hl with hne | hloud
    · right
      intro heq
      have hlen := hp.length_le
      rw [heq, List.length_append] at hlen
      have : e2.length = 0 := by omega
      exact hne (List.length_eq_zero.1 this)
    · exact Or.inl (hloud w hno1)

theorem checkReply_ok {α : Type} (wrapMsg : Option Str) (statusMsg : Str) (r : Reply α) (a : α)
    (h : checkReply wrapMsg statusMsg r = Res.ok a) :
    r.good = true ∧ ∃ code, r = Reply.http code a ∧ code ≤ 201 := by
  cases r with
  | fail e => cases wrapMsg <;> simp [checkReply] at h
  | http code val =>
    by_cases hc : code > 201
    · simp [checkReply, hc] at h
    · simp only [checkReply, hc, if_false, Res.ok.injEq] at h
      subst h
      exact ⟨by simp [Reply.good]; omega, code, rfl, by omega⟩

theorem checkReply_not_ok {α : Type} (wrapMsg : Option Str) (statusMsg : Str) (r : Reply α)
    (h : ∀ a, checkReply wrapMsg statusMsg r ≠ Res.ok a) : r.good = false := by
  cases r with
  | fail e => rfl
  | http code val =>
    by_cases hc : code > 201
    · simp [Reply.good]; omega
    · exact absurd (by simp [checkReply, hc]) (h val)

theorem phase_command {σ α : Type} (c : Cmd) (wrapMsg : Option Str) (statusMsg : Str)
    (call : σ → Reply α × σ) :
    Phase [c] (fun _ ds => ds = []) (command c wrapMsg statusMsg call) := by
  intro w
  refine ⟨by simp [command, cmds, Event.toCmd], fun _ => by simp [command, dumps, Event.toDump],
    ?_⟩
  intro a ha
  refine ⟨by simp [command, cmds, Event.toCmd], ?_, by simp [command, dumps, Event.toDump]⟩
  intro e he
  simp only [command, List.mem_singleton] at he
  subst he
  exact (checkReply_ok _ _ _ a ha).1

theorem loud_command {σ α : Type} (c : Cmd) (wrapMsg : Option Str) (statusMsg : Str)
    (call : σ → Reply α × σ) : Loud (command c wrapMsg statusMsg call) := by
  intro w hno
  exact ⟨_, List.mem_singleton.2 rfl, checkReply_not_ok _ _ _ hno⟩

theorem phase_query {σ α : Type} (q : Query) (wrapMsg : Option Str) (statusMsg : Str)
    (call : σ → Reply α × σ) :
    Phase [] (fun a ds => ds = [] ∧ ∃ s code, (call s).1 = Reply.http code a ∧ code ≤ 201)
      (query q wrapMsg statusMsg call) := by
  intro w
  refine ⟨by simp [query, cmds, Event.toCmd], fun _ => by simp [query, dumps, Event.toDump], ?_⟩
  intro a ha
  refine ⟨by simp [query, cmds, Event.toCmd], ?_, by simp [query, dumps, Event.toDump], ?_⟩
  · intro e he
    simp only [query, List.mem_singleton] at he
    subst he
    exact (checkReply_ok _ _ _ a ha).1
  · obtain ⟨code, h1, h2⟩ := (checkReply_ok _ _ _ a ha).2
    exact ⟨w.plane, code, h1, h2⟩

theorem loud_query {σ α : Type} (q : Query) (wrapMsg : Option Str) (statusMsg : Str)
    (call : σ → Reply α × σ) : Loud (query q wrapMsg statusMsg call) := by
  intro w hno
  exact ⟨_, List.mem_singleton.2 rfl, checkReply_not_ok _ _ _ hno⟩

theorem phase_awaitAction {σ : Type} (p : resolverService σ) (action : Action) :
    Phase [] (fun _ ds => ds = []) (awaitAction p action) := by
  intro w
  refine ⟨by simp [awaitAction, cmds, Event.toCmd],
    fun _ => by simp [awaitAction, dumps, Event.toDump], ?_⟩
  intro a ha
  refine ⟨by simp [awaitAction, cmds, Event.toCmd], ?_,
    by simp [awaitAction, dumps, Event.toDump]⟩
  intro e he
  simp only [awaitAction, List.mem_singleton] at he
  subst he
  simp only [awaitAction] at ha
  simp [Event.good, ha]

theorem loud_awaitAction {σ : Type} (p : resolverService σ) (action : Action) :
    Loud (awaitAction p action) := by
  intro w hno
  refine ⟨_, List.mem_singleton.2 rfl, ?_⟩
  simp only [Event.good, decide_eq_false_iff_not]
  exact hno ()

theorem phase_pure {σ α : Type} (a : α) :
    Phase [] (fun b ds => ds = [] ∧ b = a) (M.pure a : M σ α) := by
  intro w
  refine ⟨by simp [M.pure, cmds], fun _ => rfl, ?_⟩
  intro b hb
  simp only [M.pure, Res.ok.injEq] at hb
  exact ⟨rfl, by simp [M.pure], rfl, hb.symm⟩

theorem tight_pure {σ α : Type} (a : α) : Tight [] (M.pure a : M σ α) := by
  intro w hno
  exact absurd rfl (hno a)

theorem phase_fail {σ α : Type} (exp : List Cmd) (Q : α → List ServerDump → Prop) (e : Err) :
    Phase exp Q (fail e : M σ α) := by
  intro w
  refine ⟨by simp [fail, cmds], fun _ => rfl, ?_⟩
  intro a ha
  simp [fail] at ha

theorem phase_panicNow {σ α : Type} (exp : List Cmd) (Q : α → List ServerDump → Prop) :
    Phase exp Q (panicNow : M σ α) := by
  intro w
  refine ⟨by simp [panicNow, cmds], fun _ => rfl, ?_⟩
  intro a ha
  simp [panicNow] at ha

theorem phase_serverGetByName {σ : Type} (p : resolverService σ) (serverName : Str) :
    Phase [] (fun (_ : Option Server) ds => ds = []) (serverGetByName p serverName) := by
  unfold serverGetByName
  split_ifs
  · exact phase_panicNow _ _
  · exact phase_mono (phase_query _ _ _ _) (fun _ _ h => h.1)

theorem phase_serverCreate {σ : Type} (p : resolverService σ) (opts : ServerCreateOpts) :
    Phase [Cmd.createServer opts] (fun (_ : Action × Server) ds => ds = [])
      (serverCreate p opts) := by
  unfold serverCreate
  split
  · exact phase_fail _ _ _
  · exact phase_command _ _ _ _

theorem phase_unassignFloatingIPs {σ : Type} (p : resolverService σ) (hget : GetsByID p.client) :
    ∀ fIPs : List FloatingIP,
      Phase (fIPs.map (fun f => Cmd.unassignFloatingIP f.ID)) (fun _ ds => ds = [])
        (unassignFloatingIPs p fIPs) := by
  intro fIPs
  induction fIPs with
  | nil => exact phase_mono (phase_pure ()) (fun _ _ h => h.1)
  | cons fIP rest ih =>
    unfold unassignFloatingIPs
    simp only [bind, List.map_cons]
    have h := phase_bind (e := Cmd.unassignFloatingIP fIP.ID ::
        rest.map (fun f => Cmd.unassignFloatingIP f.ID)) (Q := fun _ ds => ds = [])
      (phase_query (Query.floatingIPGetByID fIP.ID) none "could not get floating ip".toList
        (p.client.floatingIPGetByID fIP.ID)) (fun _ _ h => h.1)
      (f := fun assignedfIP =>
        M.bind (command (Cmd.unassignFloatingIP assignedfIP.ID) none
          "could not unassign floating ip".toList (p.client.floatingIPUnassign assignedfIP))
          (fun action => M.bind (awaitAction p action) (fun _ => unassignFloatingIPs p rest)))
      (by
        intro a ⟨_, s, code, h1, h2⟩
        have hid : a.ID = fIP.ID := hget _ _ _ _ h1 h2
        beta_reduce
        rw [hid]
        have h3 := phase_bind (Q := fun (_ : Unit) ds => ds = [])
          (phase_command (Cmd.unassignFloatingIP fIP.ID) none
            "could not unassign floating ip".toList (p.client.floatingIPUnassign a))
          (fun _ _ h => h)
          (f := fun action => M.bind (awaitAction p action) (fun _ => unassignFloatingIPs p rest))
          (fun action _ => by
            have h4 := phase_bind (phase_awaitAction p action) (fun _ _ h => h)
              (f := fun _ => unassignFloatingIPs p rest) (fun _ _ => ih)
            simpa using h4)
        simpa using h3)
    simpa using h

theorem phase_unassignPrimaryIP {σ : Type} (p : resolverService σ) (statusMsg : Str) (id : Int) :
    Phase (if id ≠ 0 then [Cmd.unassignPrimaryIP id] else []) (fun _ ds => ds = [])
      (unassignPrimaryIP p statusMsg id) := by
  unfold unassignPrimaryIP
  by_cases h : id ≠ 0
  · rw [if_pos h, if_pos h]
    simp only [bind]
    have h3 := phase_bind (Q := fun (_ : Unit) ds => ds = [])
      (phase_command (Cmd.unassignPrimaryIP id) none statusMsg (p.client.primaryIPUnassign id))
      (fun _ _ h => h) (f := fun action => awaitAction p action)
      (fun action _ => phase_awaitAction p action)
    simpa using h3
  · rw [if_neg h, if_neg h]
    exact phase_mono (phase_pure ()) (fun _ _ h => h.1)

theorem storeServer_nil (j : Json) (p : Fs) (s : ServerDump) : (storeServer j p s).1 = none := rfl

theorem phase_ensureAndStore {σ : Type} (p : resolverService σ) (path : Str) (d : ServerDump) :
    Phase [] (fun a ds => ds = [a]) (ensureAndStore p path d : M σ ServerDump) := by
  intro w
  unfold ensureAndStore
  rcases he : EnsureHasDirectory w.disk path with ⟨r, dk⟩
  cases r with
  | error e =>
    simp only [he]
    refine ⟨by simp [cmds], fun _ => rfl, fun a ha => by simp at ha⟩
  | ok path2 =>
    simp only [he]
    rcases hs : StoreServer p.json dk path2 d with ⟨r2, dk2⟩
    have hnil : r2 = none := by
      have : (StoreServer p.json dk path2 d).1 = none := rfl
      rw [hs] at this
      exact this
    subst hnil
    simp only
    refine ⟨by simp [cmds, Event.toCmd], fun h => absurd rfl (h d), ?_⟩
    intro a ha
    simp only [Res.ok.injEq] at ha
    subst ha
    exact ⟨by simp [cmds, Event.toCmd], by simp [Event.good], by simp [dumps, Event.toDump]⟩

theorem phase_createServerDump {σ : Type} (p : resolverService σ) (serverDumpID : Str)
    (svr : Server) :
    Phase [Cmd.createImage] (fun a ds => ds = [a]) (createServerDump p serverDumpID svr) := by
  unfold createServerDump
  simp only [bind]
  have h := phase_bind (e := [Cmd.createImage]) (Q := fun (a : ServerDump) ds => ds = [a])
    (phase_query Query.floatingIPList (some "failed to list floating ips".toList)
      "could not list floating ips".toList p.client.floatingIPList) (fun _ _ h => h.1)
    (f := fun fIPs =>
      M.bind (query Query.sshKeyList (some "failed to list ssh keys".toList)
        "could not list ssh keys".toList p.client.sshKeyList) (fun sshKeys =>
      M.bind (command Cmd.createImage (some "failed to create image".toList)
        "could not create image".toList (p.client.serverCreateImage svr)) (fun srvImg =>
      M.bind (awaitAction p srvImg.1) (fun _ =>
        ensureAndStore p (NewServerDumpPath p.directory p.project svr.Name serverDumpID)
          { Server := svr
            FloatingIPs := fIPs.filter (fun fIP =>
              match fIP.Server with
              | none => false
              | some id => decide (id = svr.ID))
            SSHKeys := sshKeys, Snapshot := srvImg.2 }))))
    (fun fIPs _ => by
      have h2 := phase_bind (e := [Cmd.createImage])
        (Q := fun (a : ServerDump) ds => ds = [a])
        (phase_query Query.sshKeyList (some "failed to list ssh keys".toList)
          "could not list ssh keys".toList p.client.sshKeyList) (fun _ _ h => h.1)
        (f := fun sshKeys =>
          M.bind (command Cmd.createImage (some "failed to create image".toList)
            "could not create image".toList (p.client.serverCreateImage svr)) (fun srvImg =>
          M.bind (awaitAction p srvImg.1) (fun _ =>
            ensureAndStore p (NewServerDumpPath p.directory p.project svr.Name serverDumpID)
              { Server := svr
                FloatingIPs := fIPs.filter (fun fIP =>
                  match fIP.Server with
                  | none => false
                  | some id => decide (id = svr.ID))
                SSHKeys := sshKeys, Snapshot := srvImg.2 })))
        (fun sshKeys _ => by
          have h3 := phase_bind (e := []) (Q := fun (a : ServerDump) ds => ds = [a])
            (phase_command Cmd.createImage (some "failed to create image".toList)
              "could not create image".toList (p.client.serverCreateImage svr))
            (fun _ _ h => h)
            (f := fun srvImg =>
              M.bind (awaitAction p srvImg.1) (fun _ =>
                ensureAndStore p (NewServerDumpPath p.directory p.project svr.Name serverDumpID)
                  { Server := svr
                    FloatingIPs := fIPs.filter (fun fIP =>
                      match fIP.Server with
                      | none => false
                      | some id => decide (id = svr.ID))
                    SSHKeys := sshKeys, Snapshot := srvImg.2 }))
            (fun srvImg _ => by
              have h4 := phase_bind (e := []) (Q := fun (a : ServerDump) ds => ds = [a])
                (phase_awaitAction p srvImg.1) (fun _ _ h => h)
                (f := fun _ =>
                  ensureAndStore p
                    (NewServerDumpPath p.directory p.project svr.Name serverDumpID)
                    { Server := svr
                      FloatingIPs := fIPs.filter (fun fIP =>
                        match fIP.Server with
                        | none => false
                        | some id => decide (id = svr.ID))
                      SSHKeys := sshKeys, Snapshot := srvImg.2 })
                (fun _ _ => phase_ensureAndStore p _ _)
              simpa using h4)
          simpa using h3)
      simpa using h2)
  simpa using h

theorem safe_of_no_delete (t : List Event) (h : Cmd.deleteServer ∉ cmds t) : SafeDelete t := by
  intro pre post ok ht
  exact absurd (mem_cmds_of_mem t _ ok (by rw [ht]; simp)) h

theorem safe_append (t1 t2 : List Event) (h1 : Cmd.deleteServer ∉ cmds t1)
    (hg : ∀ e ∈ t1, e.good = true) (h2 : SafeDelete t2) : SafeDelete (t1 ++ t2) := by
  intro pre post ok ht
  rcases List.append_eq_append_iff.1 ht with ⟨a, ha1, ha2⟩ | ⟨c, hc1, hc2⟩
  · intro e he
    rw [ha1] at he
    rcases List.mem_append.1 he with h | h
    · exact hg e h
    · exact h2 a post ok ha2 e h
  · cases c with
    | nil =>
      simp only [List.append_nil] at hc1
      simp only [List.nil_append] at hc2
      intro e he
      exact hg e (by rw [hc1]; exact he)
    | cons x c2 =>
      simp only [List.cons_append, List.cons.injEq] at hc2
      exact absurd (mem_cmds_of_mem t1 _ ok (by rw [hc1, ← hc2.1]; simp)) h1

theorem safe_bind {σ α β : Type} {e1 : List Cmd} {Q1 : α → List ServerDump → Prop}
    {m : M σ α} {f : α → M σ β} (hm : Phase e1 Q1 m) (hd : Cmd.deleteServer ∉ e1)
    (hf : ∀ a, Safe (f a)) : Safe (M.bind m f) := by
  intro w
  obtain ⟨hp, -, hok⟩ := hm w
  have hno : Cmd.deleteServer ∉ cmds (m w).trace := fun h => hd (hp.subset h)
  by_cases h : ∃ a, (m w).result = Res.ok a
  · obtain ⟨a, ha⟩ := h
    rw [bind_trace_ok m f w a ha]
    exact safe_append _ _ hno (hok a ha).2.1 (hf a _)
  · rw [(bind_not_ok m f w (fun a ha => h ⟨a, ha⟩)).1]
    exact safe_of_no_delete _ hno

theorem safe_delete_bind {σ α β : Type} {Q : β → List ServerDump → Prop}
    (wrapMsg : Option Str) (statusMsg : Str) (call : σ → Reply α × σ) (f : α → M σ β)
    (hf : ∀ a, Phase [] Q (f a)) :
    Safe (M.bind (command Cmd.deleteServer wrapMsg statusMsg call) f) := by
  intro w pre post ok ht
  cases pre with
  | nil => intro e he; simp at he
  | cons x pre2 =>
    exfalso
    have hin : Cmd.deleteServer ∈ cmds (pre2 ++ Event.command Cmd.deleteServer ok :: post) :=
      mem_cmds_of_mem _ _ ok (by simp)
    by_cases h : ∃ a, (command Cmd.deleteServer wrapMsg statusMsg call w).result = Res.ok a
    · obtain ⟨a, ha⟩ := h
      rw [bind_trace_ok _ f w a ha] at ht
      simp only [command, List.singleton_append, List.cons_append, List.cons.injEq,
        List.nil_append] at ht
      have hp := (hf a { plane := (call w.plane).2, disk := w.disk }).1
      rw [ht.2] at hp
      have hnil := List.prefix_nil.1 hp
      rw [hnil] at hin
      simp at hin
    · rw [(bind_not_ok _ f w (fun a ha => h ⟨a, ha⟩)).1] at ht
      simp only [command, List.cons_append, List.cons.injEq] at ht
      have := ht.2
      simp at this

theorem phase_freezeTeardown {σ : Type} (p : resolverService σ) (hget : GetsByID p.client)
    (newID : Str) (svr : Server) (d : ServerDump) :
    Phase (teardownCmds d) (fun a ds => ds = [] ∧ a = newID) (freezeTeardown p newID svr d) ∧
    Tight (teardownCmds d) (freezeTeardown p newID svr d) ∧
    Safe (freezeTeardown p newID svr d) := by
  unfold freezeTeardown teardownCmds
  simp only [bind]
  have pa : ∀ action : Action, Phase ([] ++ []) (fun (a : Str) ds => ds = [] ∧ a = newID)
      (M.bind (awaitAction p action) (fun _ => M.pure newID)) := fun action =>
    phase_bind (phase_awaitAction p action) (fun _ _ h => h) (fun _ _ => phase_pure newID)
  have ta : ∀ action : Action, Tight ([] ++ [])
      (M.bind (awaitAction p action) (fun _ => (M.pure newID : M σ Str))) := fun action =>
    tight_bind (phase_awaitAction p action) (Or.inr (loud_awaitAction p action))
      (fun _ _ _ => tight_pure newID)
  have pd := phase_bind
    (phase_command Cmd.deleteServer none "could not delete server".toList
      (p.client.serverDeleteWithResult svr)) (fun _ _ h => h)
    (f := fun action => M.bind (awaitAction p action) (fun _ => M.pure newID))
    (fun action _ => pa action)
  have td : Tight ([Cmd.deleteServer] ++ ([] ++ [])) _ := tight_bind
    (phase_command Cmd.deleteServer none "could not delete server".toList
      (p.client.serverDeleteWithResult svr))
    (Or.inr (loud_command _ _ _ _))
    (f := fun action => M.bind (awaitAction p action) (fun _ => (M.pure newID : M σ Str)))
    (fun action _ _ => ta action)
  have sd := safe_delete_bind none "could not delete server".toList
    (p.client.serverDeleteWithResult svr)
    (fun action => M.bind (awaitAction p action) (fun _ => (M.pure newID : M σ Str)))
    (fun action => pa action)
  simp only [List.append_nil] at pd td
  have p6 := phase_unassignPrimaryIP p "could not unassign ipv6".toList d.Server.PublicNet.IPv6.ID
  have p4 := phase_unassignPrimaryIP p "could not unassign ipv4".toList d.Server.PublicNet.IPv4.ID
  have pf := phase_unassignFloatingIPs p hget d.FloatingIPs
  have nd6 : Cmd.deleteServer ∉
      (if d.Server.PublicNet.IPv6.ID ≠ 0 then [Cmd.unassignPrimaryIP d.Server.PublicNet.IPv6.ID]
        else []) := by
    split <;> simp
  have nd4 : Cmd.deleteServer ∉
      (if d.Server.PublicNet.IPv4.ID ≠ 0 then [Cmd.unassignPrimaryIP d.Server.PublicNet.IPv4.ID]
        else []) := by
    split <;> simp
  have ndf : Cmd.deleteServer ∉ d.FloatingIPs.map (fun f => Cmd.unassignFloatingIP f.ID) := by
    simp
  refine ⟨?_, ?_, ?_⟩
  · exact phase_bind pf (fun _ _ h => h) (fun _ _ =>
      phase_bind p4 (fun _ _ h => h) (fun _ _ =>
        phase_bind p6 (fun _ _ h => h) (fun _ _ => pd)))
  · exact tight_bind pf (Or.inl (by simp)) (fun _ _ _ =>
      tight_bind p4 (Or.inl (by simp)) (fun _ _ _ =>
        tight_bind p6 (Or.inl (by simp)) (fun _ _ _ => td)))
  · exact safe_bind pf ndf (fun _ =>
      safe_bind p4 nd4 (fun _ =>
        safe_bind p6 nd6 (fun _ => sd)))

theorem freezeSpec_of_failed {σ α : Type} {d : List Cmd} (newID : Str) (pre : List Cmd)
    (m : M σ α) (f : α → M σ Str) (w : World σ)
    (hp : cmds (m w).trace <+: d) (hd : dumps (m w).trace = [])
    (hdel : Cmd.deleteServer ∉ d) (hno : ∀ a, (m w).result ≠ Res.ok a) :
    FreezeSpec newID (d ++ pre) (M.bind m f w).trace (M.bind m f w).result := by
  obtain ⟨ht, -, hr⟩ := bind_not_ok m f w hno
  rw [ht]
  refine ⟨?_, ?_, ?_, ?_⟩
  · rw [hd]
    simp only [List.head?_nil, List.append_assoc]
    exact hp.trans (List.prefix_append _ _)
  · rw [hd]
    constructor
    · intro h; exact absurd h (hr _)
    · rintro ⟨d, h, -⟩; simp at h
  · intro id h; exact absurd h (hr _)
  · exact safe_of_no_delete _ (fun h => hdel (hp.subset h))

theorem freezeSpec_core {σ : Type} (p : resolverService σ) (hget : GetsByID p.client)
    (newID : Str) (svr : Server) (w : World σ) :
    FreezeSpec newID []
      (M.bind (createServerDump p newID svr) (freezeTeardown p newID svr) w).trace
      (M.bind (createServerDump p newID svr) (freezeTeardown p newID svr) w).result := by
  obtain ⟨hp, hd, hok⟩ := phase_createServerDump p newID svr w
  by_cases h : ∃ d, (createServerDump p newID svr w).result = Res.ok d
  · obtain ⟨d, hdr⟩ := h
    obtain ⟨hc1, hg1, hq1⟩ := hok d hdr
    obtain ⟨ph, ti, sa⟩ := phase_freezeTeardown p hget newID svr d
    obtain ⟨hp2, -, hok2⟩ := ph (createServerDump p newID svr w).world
    have hti := ti (createServerDump p newID svr w).world
    rw [bind_trace_ok _ _ w d hdr, bind_result_ok _ _ w d hdr]
    have hdel : Cmd.deleteServer ∉ cmds (createServerDump p newID svr w).trace := by
      rw [hc1]; simp
    refine ⟨?_, ?_, ?_, safe_append _ _ hdel hg1 (sa _)⟩
    · rw [dumps_append, hq1, cmds_append, hc1]
      simp only [List.singleton_append, List.head?_cons, List.nil_append]
      exact (List.prefix_cons_inj Cmd.createImage).2 hp2
    · rw [dumps_append, hq1, cmds_append, hc1]
      simp only [List.singleton_append, List.head?_cons, List.nil_append, Option.some.injEq,
        List.cons.injEq, true_and]
      constructor
      · intro hr
        obtain ⟨hc2, hg2, -⟩ := hok2 newID hr
        refine ⟨d, rfl, hc2, ?_⟩
        intro e he
        rcases List.mem_append.1 he with h1 | h1
        · exact hg1 e h1
        · exact hg2 e h1
      · rintro ⟨d2, hd2, hc2, hg⟩
        subst hd2
        by_cases hr : ∃ id, (freezeTeardown p newID svr d
            (createServerDump p newID svr w).world).result = Res.ok id
        · obtain ⟨id, hid⟩ := hr
          have := (hok2 id hid).2.2.2
          rw [hid, this]
        · exfalso
          rcases hti (fun a ha => hr ⟨a, ha⟩) with ⟨e, he, hbad⟩ | hne
          · have := hg e (List.mem_append_right _ he)
            rw [this] at hbad
            cases hbad
          · exact hne hc2
    · intro id hid
      exact (hok2 id hid).2.2.2
  · have hno : ∀ a, (createServerDump p newID svr w).result ≠ Res.ok a := fun a ha => h ⟨a, ha⟩
    have := freezeSpec_of_failed (d := [Cmd.createImage]) newID [] _
      (freezeTeardown p newID svr) w hp (hd hno) (by simp) hno
    obtain ⟨a1, a2, a3, a4⟩ := this
    refine ⟨?_, ?_, a3, a4⟩
    · rw [(bind_not_ok _ _ w hno).1, hd hno]
      simpa using hp
    · rw [(bind_not_ok _ _ w hno).1, hd hno]
      constructor
      · intro h2; exact absurd h2 ((bind_not_ok _ _ w hno).2.2 _)
      · rintro ⟨d, h2, -⟩; simp at h2

theorem freezeSpec_prepend {σ α : Type} {e1 : List Cmd} {Q1 : α → List ServerDump → Prop}
    (newID : Str) (pre : List Cmd) (m : M σ α) (f : α → M σ Str)
    (hm : Phase e1 Q1 m) (hq : ∀ a ds, Q1 a ds → ds = []) (hdel : Cmd.deleteServer ∉ e1)
    (hf : ∀ a w, FreezeSpec newID pre (f a w).trace (f a w).result) (w : World σ) :
    FreezeSpec newID (e1 ++ pre) (M.bind m f w).trace (M.bind m f w).result := by
  obtain ⟨hp, hd, hok⟩ := hm w
  by_cases h : ∃ a, (m w).result = Res.ok a
  · obtain ⟨a, ha⟩ := h
    obtain ⟨hc1, hg1, hq1⟩ := hok a ha
    have hds := hq a _ hq1
    obtain ⟨b1, b2, b3, b4⟩ := hf a (m w).world
    rw [bind_trace_ok m f w a ha, bind_result_ok m f w a ha]
    have hdel2 : Cmd.deleteServer ∉ cmds (m w).trace := by rw [hc1]; exact hdel
    refine ⟨?_, ?_, b3, safe_append _ _ hdel2 hg1 b4⟩
    · rw [dumps_append, hds, cmds_append, hc1, List.nil_append]
      cases hh : (dumps (f a (m w).world).trace).head? with
      | none =>
        rw [hh] at b1
        simp only [List.append_assoc]
        exact (List.prefix_append_right_inj e1).2 b1
      | some d =>
        rw [hh] at b1
        simp only [List.append_assoc]
        exact (List.prefix_append_right_inj e1).2 b1
    · rw [dumps_append, hds, cmds_append, hc1, List.nil_append, b2]
      constructor
      · rintro ⟨d, h1, h2, h3⟩
        refine ⟨d, h1, by rw [h2, List.append_assoc], ?_⟩
        intro e he
        rcases List.mem_append.1 he with h4 | h4
        · exact hg1 e h4
        · exact h3 e h4
      · rintro ⟨d, h1, h2, h3⟩
        rw [List.append_assoc] at h2
        exact ⟨d, h1, List.append_cancel_left h2, fun e he => h3 e (List.mem_append_right _ he)⟩
  · have hno : ∀ a, (m w).result ≠ Res.ok a := fun a ha => h ⟨a, ha⟩
    exact freezeSpec_of_failed newID pre m f w hp (hd hno) hdel hno

theorem freezeSpec_fail {σ : Type} (newID : Str) (pre : List Cmd) (e : Err) (w : World σ) :
    FreezeSpec newID pre (fail e w : Run σ Str).trace (fail e w : Run σ Str).result := by
  refine ⟨by simp [fail, dumps, cmds], ?_, ?_, ?_⟩
  · constructor
    · intro h; simp [fail] at h
    · rintro ⟨d, h, -⟩; simp [fail, dumps] at h
  · intro id h; simp [fail] at h
  · exact safe_of_no_delete _ (by simp [fail, cmds])

theorem freezeSpec_FreezeServer {σ : Type} (p : resolverService σ) (hget : GetsByID p.client)
    (now : Int) (serverName : Str) (w : World σ) :
    FreezeSpec (newDumpID now) [Cmd.shutdown] (FreezeServer p now serverName w).trace
      (FreezeServer p now serverName w).result := by
  unfold FreezeServer
  simp only [bind]
  have h := freezeSpec_prepend (newDumpID now) [Cmd.shutdown]
    (serverGetByName p serverName)
    (fun svr =>
      match svr with
      | none => fail (Err.serverNotFound serverName)
      | some svr =>
        M.bind (command Cmd.shutdown none "could not shutdown server".toList
          (p.client.serverShutdown svr)) (fun action =>
        M.bind (awaitAction p action) (fun _ =>
        M.bind (createServerDump p (newDumpID now) svr)
          (fun serverDump => freezeTeardown p (newDumpID now) svr serverDump))))
    (phase_serverGetByName p serverName) (fun _ _ h => h) (by simp)
    (by
      intro svr w1
      cases svr with
      | none => exact freezeSpec_fail _ _ _ _
      | some svr =>
        have h2 := freezeSpec_prepend (newDumpID now) []
          (command Cmd.shutdown none "could not shutdown server".toList
            (p.client.serverShutdown svr))
          (fun action =>
            M.bind (awaitAction p action) (fun _ =>
            M.bind (createServerDump p (newDumpID now) svr)
              (fun serverDump => freezeTeardown p (newDumpID now) svr serverDump)))
          (phase_command _ _ _ _) (fun _ _ h => h) (by simp)
          (by
            intro action w2
            have h3 := freezeSpec_prepend (newDumpID now) []
              (awaitAction p action)
              (fun _ =>
                M.bind (createServerDump p (newDumpID now) svr)
                  (fun serverDump => freezeTeardown p (newDumpID now) svr serverDump))
              (phase_awaitAction p action) (fun _ _ h => h) (by simp)
              (fun _ w3 => freezeSpec_core p hget (newDumpID now) svr w3) w2
            simpa using h3) w1
        simpa using h2) w
  simpa using h

/-! ### Listing, waiting, and the demo control plane -/

theorem walkDirs_prefix (vs : List Visit) : ∀ (acc names : List Str),
    walkDirs vs acc = Except.ok names → acc <+: names := by
  induction vs with
  | nil =>
    intro acc names h
    simp only [walkDirs, Except.ok.injEq] at h
    rw [h]
  | cons v rest ih =>
    intro acc names h
    unfold walkDirs at h
    cases hv : v.err with
    | some e => rw [hv] at h; cases h
    | none =>
      rw [hv] at h
      have := ih _ _ h
      by_cases hd : v.isDir = true
      · rw [if_pos hd] at this
        exact (List.prefix_append _ _).trans this
      · rw [if_neg hd] at this
        exact this

theorem waitLoop_keeps_waiting (pre : List (Nat × Action))
    (hpre : ∀ o ∈ pre, o.1 ≤ 201 ∧ keepsWaiting o.2 = true) :
    ∀ (statusAction : Option Action) (polls : Nat) (rest : List WaitEvent),
      waitLoop statusAction polls (polled pre ++ rest) =
        waitLoop (match pre.getLast? with
                  | some o => some o.2
                  | none => statusAction) (polls + pre.length) rest := by
  induction pre with
  | nil => intro s n rest; simp [polled]
  | cons o tl ih =>
    intro s n rest
    obtain ⟨hcode, hkeep⟩ := hpre o (by simp)
    have htl := ih (fun x hx => hpre x (by simp [hx])) (some o.2) (n + 1) rest
    have hnot : ¬ (o.1 > 201) := by omega
    simp only [keepsWaiting, Bool.or_eq_true, Bool.and_eq_true, decide_eq_true_eq] at hkeep
    have hstep : waitLoop s n (polled (o :: tl) ++ rest)
        = waitLoop (some o.2) (n + 1) (polled tl ++ rest) := by
      rcases hkeep with hrun | ⟨herr, hmsg⟩
      · simp [polled, waitLoop, hnot, hrun]
      · simp at hmsg
        simp [polled, waitLoop, hnot, herr, hmsg]
    rw [hstep, htl]
    cases tl with
    | nil => simp
    | cons o2 tl2 =>
      simp only [List.getLast?_cons_cons, List.length_cons]
      congr 1
      omega

theorem getsByID_demoClient : GetsByID demoClient := by
  intro id s code v h _
  simp only [demoClient, Reply.http.injEq] at h
  rw [← h.2]

/-! ### The private-network loop of unfreeze -/

theorem attachRequest_isAttach (pNet : ServerPrivateNet) (c : Cmd)
    (h : attachRequest pNet = some c) : c.isAttach = true := by
  unfold attachRequest at h
  simp only at h
  split_ifs at h
  simp only [Option.some.injEq] at h
  rw [← h]
  rfl

theorem attachCmds_filter (nets : List ServerPrivateNet) :
    (attachCmds nets).filter Cmd.isAttach = attachCmds nets := by
  rw [List.filter_eq_self]
  intro c hc
  simp only [attachCmds, List.mem_filterMap] at hc
  obtain ⟨pNet, -, h⟩ := hc
  exact attachRequest_isAttach pNet c h

theorem phase_attachPrivateNets {σ : Type} (p : resolverService σ) (server : Server) :
    ∀ nets : List ServerPrivateNet,
      Phase (attachCmds nets) (fun _ ds => ds = []) (attachPrivateNets p server nets) := by
  intro nets
  induction nets with
  | nil => exact phase_mono (phase_pure ()) (fun _ _ h => h.1)
  | cons pNet rest ih =>
    unfold attachPrivateNets
    by_cases hlen : (stringsSplit pNet.IP ".".toList).length ≠ 4
    · have hreq : attachRequest pNet = none := by
        unfold attachRequest
        simp only
        rw [if_pos hlen]
      have hc : attachCmds (pNet :: rest) = attachCmds rest := by
        simp only [attachCmds, List.filterMap_cons, hreq]
      rw [hc]
      simp only
      rw [if_pos hlen]
      exact ih
    · have hreq : attachRequest pNet = some (Cmd.attachToNetwork pNet.Network
          ((stringsSplit pNet.IP ".".toList).map (fun item => toByte (Atoi item).num))) := by
        unfold attachRequest
        simp only
        rw [if_neg hlen]
      have hc : attachCmds (pNet :: rest) = Cmd.attachToNetwork pNet.Network
          ((stringsSplit pNet.IP ".".toList).map (fun item => toByte (Atoi item).num)) ::
            attachCmds rest := by
        simp only [attachCmds, List.filterMap_cons, hreq]
      rw [hc]
      simp only
      rw [if_neg hlen]
      simp only [bind]
      have h3 := phase_bind (e := attachCmds rest) (Q := fun (_ : Unit) ds => ds = [])
        (phase_command (Cmd.attachToNetwork pNet.Network
            ((stringsSplit pNet.IP ".".toList).map (fun item => toByte (Atoi item).num))) none
          "could not attach server to private network".toList
          (p.client.serverAttachToNetwork server pNet.Network
            ((stringsSplit pNet.IP ".".toList).map (fun item => toByte (Atoi item).num))))
        (fun _ _ h => h)
        (f := fun action => M.bind (awaitAction p action) (fun _ => attachPrivateNets p server rest))
        (fun action _ => by
          have h4 := phase_bind (phase_awaitAction p action) (fun _ _ h => h)
            (f := fun _ => attachPrivateNets p server rest) (fun _ _ => ih)
          exact h4)
      exact h3

theorem attaches_append (a b : List Event) : attaches (a ++ b) = attaches a ++ attaches b := by
  simp [attaches, cmds_append]

theorem attaches_of_phase {σ α : Type} {e : List Cmd} {Q : α → List ServerDump → Prop}
    {m : M σ α} (hm : Phase e Q m) (he : ∀ c ∈ e, c.isAttach = false) (w : World σ) :
    attaches (m w).trace = [] := by
  obtain ⟨hp, -, -⟩ := hm w
  simp only [attaches, List.filter_eq_nil_iff]
  intro c hc
  simp [he c (hp.subset hc)]

theorem attachSpec_bind {σ α : Type} (m : M σ α) (f : α → M σ Unit) (w : World σ)
    (exp : List Cmd) (hq : attaches (m w).trace = [])
    (hf : ∀ a, (m w).result = Res.ok a → AttachSpec exp (f a (m w).world)) :
    AttachSpec exp (M.bind m f w) := by
  by_cases h : ∃ a, (m w).result = Res.ok a
  · obtain ⟨a, ha⟩ := h
    obtain ⟨h1, h2⟩ := hf a ha
    unfold AttachSpec
    rw [bind_trace_ok m f w a ha, bind_result_ok m f w a ha, attaches_append, hq]
    exact ⟨h1, h2⟩
  · obtain ⟨ht, -, hr⟩ := bind_not_ok m f w (fun a ha => h ⟨a, ha⟩)
    unfold AttachSpec
    rw [ht, hq]
    exact ⟨List.nil_prefix, fun hok => absurd hok (hr ())⟩

theorem phase_resolveFloatingIPs {σ : Type} (p : resolverService σ) :
    ∀ (fIPs acc : List FloatingIP),
      Phase [] (fun _ ds => ds = []) (resolveFloatingIPs p fIPs acc) := by
  intro fIPs
  induction fIPs with
  | nil => intro acc; exact phase_mono (phase_pure acc) (fun _ _ h => h.1)
  | cons fIP rest ih =>
    intro acc
    unfold resolveFloatingIPs
    simp only [bind]
    have h := phase_bind (Q := fun (_ : List FloatingIP) ds => ds = [])
      (phase_query (Query.floatingIPGetByID fIP.ID) none "could not get floating ip".toList
        (p.client.floatingIPGetByID fIP.ID)) (fun _ _ h => h.1)
      (f := fun fIP2 => resolveFloatingIPs p rest (acc ++ [fIP2]))
      (fun fIP2 _ => ih (acc ++ [fIP2]))
    simpa using h

theorem phase_assignFloatingIPs {σ : Type} (p : resolverService σ) (server : Server) :
    ∀ fIPs : List FloatingIP,
      Phase (fIPs.map (fun f => Cmd.assignFloatingIP f.ID)) (fun _ ds => ds = [])
        (assignFloatingIPs p server fIPs) := by
  intro fIPs
  induction fIPs with
  | nil => exact phase_mono (phase_pure ()) (fun _ _ h => h.1)
  | cons fIP rest ih =>
    unfold assignFloatingIPs
    simp only [bind, List.map_cons]
    have h3 := phase_bind (Q := fun (_ : Unit) ds => ds = [])
      (phase_command (Cmd.assignFloatingIP fIP.ID) none "could not get floating ip".toList
        (p.client.floatingIPAssign fIP server))
      (fun _ _ h => h)
      (f := fun action => M.bind (awaitAction p action) (fun _ => assignFloatingIPs p server rest))
      (fun action _ => by
        have h4 := phase_bind (phase_awaitAction p action) (fun _ _ h => h)
          (f := fun _ => assignFloatingIPs p server rest) (fun _ _ => ih)
        simpa using h4)
    simpa using h3

theorem selectDumpID_quiet {σ : Type} (p : resolverService σ) (serverName serverDumpID : Str)
    (w : World σ) :
    (selectDumpID p serverName serverDumpID w).world = w ∧
      (selectDumpID p serverName serverDumpID w).trace = [] := by
  unfold selectDumpID
  split_ifs
  · split
    · exact ⟨rfl, rfl⟩
    · split <;> exact ⟨rfl, rfl⟩
  · exact ⟨rfl, rfl⟩

theorem statAndLoad_spec {σ : Type} (p : resolverService σ) (path : Str) (w : World σ) :
    (statAndLoad p path w).world = w ∧ attaches (statAndLoad p path w).trace = [] ∧
      ∀ d, (statAndLoad p path w).result = Res.ok d → d = (LoadServer p.json w.disk path).1 := by
  unfold statAndLoad
  simp only
  split
  · exact ⟨rfl, rfl, fun d h => by cases h⟩
  · split
    · exact ⟨rfl, rfl, fun d h => by cases h⟩
    · rename_i d0 hd
      refine ⟨rfl, rfl, fun d h => ?_⟩
      simp only [Res.ok.injEq] at h
      rw [← h, hd]

theorem splitScan_sep_word (c : Char) (w : Str) (hw : c ∉ w) : ∀ (cur rest : Str),
    splitScan [c] 0 cur (w ++ c :: rest) = (cur.reverse ++ w) :: splitScan [c] 0 [] rest := by
  induction w with
  | nil => intro cur rest; simp [splitScan]
  | cons x w ih =>
    intro cur rest
    have hx : x ≠ c := fun h => hw (by simp [h])
    have hw2 : c ∉ w := fun h => hw (by simp [h])
    simp [splitScan, hx, Ne.symm hx, ih hw2]

theorem splitScan_sep_end (c : Char) (w : Str) (hw : c ∉ w) : ∀ cur : Str,
    splitScan [c] 0 cur w = [cur.reverse ++ w] := by
  induction w with
  | nil => intro cur; simp [splitScan]
  | cons x w ih =>
    intro cur
    have hx : x ≠ c := fun h => hw (by simp [h])
    have hw2 : c ∉ w := fun h => hw (by simp [h])
    simp [splitScan, hx, Ne.symm hx, ih hw2]

theorem dot_not_mem_digits (ds : Str) (h : isDigits ds = true) : '.' ∉ ds := by
  intro hc
  exact absurd (((isDigits_iff ds).1 h).2 '.' hc) (by decide)

theorem toByte_Atoi_octet (ds : Str) (h : isDigits ds = true) (hv : digitsVal ds ≤ 255) :
    toByte (Atoi ds).num = digitsVal ds := by
  rw [Atoi_of_digits ds h]
  have hlt : ¬ (digitsVal ds ≥ 2 ^ 63) := by omega
  simp only [atoiRange, hlt, if_false, toByte, Bool.false_eq_true]
  have hmod : ((digitsVal ds : Nat) : Int) % 256 = ((digitsVal ds : Nat) : Int) :=
    Int.emod_eq_of_lt (by omega) (by omega)
  rw [hmod, Int.toNat_natCast]

theorem stringsSplit_dotted (p1 p2 p3 p4 : Str) (h1 : '.' ∉ p1) (h2 : '.' ∉ p2)
    (h3 : '.' ∉ p3) (h4 : '.' ∉ p4) :
    stringsSplit (p1 ++ '.' :: (p2 ++ '.' :: (p3 ++ '.' :: p4))) ".".toList
      = [p1, p2, p3, p4] := by
  show splitScan ['.'] 0 [] _ = _
  rw [splitScan_sep_word '.' p1 h1, splitScan_sep_word '.' p2 h2, splitScan_sep_word '.' p3 h3,
    splitScan_sep_end '.' p4 h4]
  simp

theorem attachRequest_octets (network : Int) (p1 p2 p3 p4 : Str)
    (h1 : isDigits p1 = true) (h2 : isDigits p2 = true) (h3 : isDigits p3 = true)
    (h4 : isDigits p4 = true) (v1 : digitsVal p1 ≤ 255) (v2 : digitsVal p2 ≤ 255)
    (v3 : digitsVal p3 ≤ 255) (v4 : digitsVal p4 ≤ 255) :
    attachRequest { Network := network, IP := p1 ++ '.' :: (p2 ++ '.' :: (p3 ++ '.' :: p4)) }
      = some (Cmd.attachToNetwork network
          [digitsVal p1, digitsVal p2, digitsVal p3, digitsVal p4]) := by
  unfold attachRequest
  simp only
  rw [stringsSplit_dotted p1 p2 p3 p4 (dot_not_mem_digits _ h1) (dot_not_mem_digits _ h2)
    (dot_not_mem_digits _ h3) (dot_not_mem_digits _ h4)]
  simp only [List.length_cons, List.length_nil, List.map_cons, List.map_nil,
    toByte_Atoi_octet _ h1 v1, toByte_Atoi_octet _ h2 v2, toByte_Atoi_octet _ h3 v3,
    toByte_Atoi_octet _ h4 v4]
  simp

theorem attachSpec_UnfreezeServer {σ : Type} (p : resolverService σ)
    (serverName serverDumpID id : Str) (w : World σ)
    (hid : (selectDumpID p serverName serverDumpID w).result = Res.ok id) :
    AttachSpec
      (attachCmds (LoadServer p.json w.disk
        (NewServerDumpPath p.directory p.project serverName id)).1.Server.PrivateNet)
      (UnfreezeServer p serverName serverDumpID w) := by
  unfold UnfreezeServer
  simp only [bind]
  obtain ⟨hw1, ht1⟩ := selectDumpID_quiet p serverName serverDumpID w
  apply attachSpec_bind
  · rw [ht1]; rfl
  · intro id2 hid2
    have hidd : id2 = id := by
      rw [hid] at hid2
      simp only [Res.ok.injEq] at hid2
      exact hid2.symm
    subst hidd
    rw [hw1]
    obtain ⟨hw2, ht2, hd2⟩ :=
      statAndLoad_spec p (NewServerDumpPath p.directory p.project serverName id2) w
    apply attachSpec_bind
    · exact ht2
    · intro serverDump hsd
      rw [← hd2 serverDump hsd]
      apply attachSpec_bind
      · exact attaches_of_phase (phase_resolveFloatingIPs p _ _) (by simp) _
      · intro floatingIPs _
        apply attachSpec_bind
        · exact attaches_of_phase (phase_serverCreate p _) (by simp [Cmd.isAttach]) _
        · intro createRes _
          apply attachSpec_bind
          · exact attaches_of_phase (phase_awaitAction p _) (by simp) _
          · intro _ _
            apply attachSpec_bind
            · exact attaches_of_phase (phase_assignFloatingIPs p _ _)
                (by simp [Cmd.isAttach]) _
            · intro _ _
              obtain ⟨hp, -, hok⟩ := phase_attachPrivateNets p createRes.2
                serverDump.Server.PrivateNet
                ((assignFloatingIPs p createRes.2 floatingIPs
                  ((awaitAction p createRes.1
                    ((serverCreate p (createOpts serverDump floatingIPs)
                      ((resolveFloatingIPs p serverDump.FloatingIPs []
                        (statAndLoad p
                          (NewServerDumpPath p.directory p.project serverName id2)
                          w).world).world)).world)).world)).world)
              constructor
              · have := hp.filter Cmd.isAttach
                rw [attachCmds_filter] at this
                exact this
              · intro hr
                have := (hok () hr).1
                simp only [attaches]
                rw [this, attachCmds_filter]

/-! ### The code against the freeze of the specification -/

theorem bind_world_ok {σ α β : Type} (m : M σ α) (f : α → M σ β) (w : World σ) (a : α)
    (h : (m w).result = Res.ok a) :
    (M.bind m f w).world = (f a (m w).world).world := by
  unfold M.bind
  rcases hm : m w with ⟨r, w1, t1⟩
  rw [hm] at h
  simp only at h
  subst h
  rfl

theorem checkReply_accepted {α : Type} (wrapMsg : Option Str) (statusMsg : Str) (r : Reply α)
    (a : α) : checkReply wrapMsg statusMsg r = Res.ok a ↔ r.accepted = some a := by
  cases r with
  | fail e => cases wrapMsg <;> simp [checkReply, Reply.accepted]
  | http code val =>
    by_cases hc : code > 201
    · have hn : ¬ code ≤ 201 := by omega
      simp [checkReply, Reply.accepted, hc, hn]
    · have hn : code ≤ 201 := by omega
      simp [checkReply, Reply.accepted, hc, hn]

theorem accepted_some {α : Type} (r : Reply α) (a : α) (h : r.accepted = some a) :
    ∃ code, r = Reply.http code a ∧ code ≤ 201 := by
  cases r with
  | fail e => simp [Reply.accepted] at h
  | http code val =>
    by_cases hc : code ≤ 201
    · simp only [Reply.accepted, hc, if_true, Option.some.injEq] at h
      subst h
      exact ⟨code, rfl, hc⟩
    · simp [Reply.accepted, hc] at h

theorem waitLoop_succeeds : ∀ (events : List WaitEvent) (statusAction : Option Action)
    (polls : Nat),
    (waitLoop statusAction polls events).result = Res.ok () ↔ succeedsIn events = true
  | [], _, _ => by simp [waitLoop, succeedsIn]
  | WaitEvent.tick (Reply.fail e) :: _, _, _ => by simp [waitLoop, succeedsIn]
  | WaitEvent.tick (Reply.http code a) :: rest, _, polls => by
    have ih := waitLoop_succeeds rest (some a) (polls + 1)
    by_cases hc : code > 201
    · have hn : ¬ code ≤ 201 := by omega
      simp [waitLoop, succeedsIn, hc, hn]
    · have hn : code ≤ 201 := by omega
      by_cases hs : a.Status = ActionStatus.success
      · simp [waitLoop, succeedsIn, hc, hn, hs]
      · by_cases he : a.Status = ActionStatus.error
        · by_cases hu : stringsContains a.ErrorMessage "Unknown error".toList = true
          · simp only [waitLoop, hc, hs, he, hu, if_true, if_false, succeedsIn, hn,
              keepsWaiting, decide_True, decide_False, Bool.true_and, Bool.false_or,
              Bool.and_true, Bool.or_true]
            simpa [he] using ih
          · simp only [Bool.not_eq_true] at hu
            simp at hu
            simp [waitLoop, succeedsIn, hc, hn, hs, he, hu, keepsWaiting]
        · have hr : a.Status = ActionStatus.running := by
            cases hst : a.Status with
            | running => rfl
            | success => exact absurd hst hs
            | error => exact absurd hst he
          simp only [waitLoop, hc, hs, he, if_false, succeedsIn, hn, keepsWaiting, hr,
            decide_True, decide_False, Bool.true_and, Bool.false_or, Bool.true_or]
          simpa [hr] using ih
  | WaitEvent.deadline :: _, sa, _ => by cases sa <;> simp [waitLoop, succeedsIn]
  | WaitEvent.done :: _, sa, _ => by cases sa <;> simp [waitLoop, succeedsIn]

theorem waitForActionStatus_succeeds (action : Action) (events : List WaitEvent) :
    (waitForActionStatus action events).result = Res.ok () ↔
      actionSucceeds action events = true := by
  unfold waitForActionStatus actionSucceeds
  by_cases hs : action.Status = ActionStatus.success
  · simp [hs]
  · simp only [hs, if_false, decide_False, Bool.false_or]
    exact waitLoop_succeeds events none 0

theorem matches_pure {σ α : Type} (a : α) (w : World σ) :
    Matches (M.pure a w) (specDone a w) :=
  ⟨rfl, rfl, rfl, fun b => by simp [M.pure, specDone]⟩

theorem matches_fail {σ α : Type} (e : Err) (w : World σ) :
    Matches (fail e w : Run σ α) (specStop w) :=
  ⟨rfl, rfl, rfl, fun b => by simp [fail, specStop]⟩

theorem matches_panicNow {σ α : Type} (w : World σ) :
    Matches (panicNow w : Run σ α) (specStop w) :=
  ⟨rfl, rfl, rfl, fun b => by simp [panicNow, specStop]⟩

theorem matches_query {σ α : Type} (q : Query) (wrapMsg : Option Str) (statusMsg : Str)
    (call : σ → Reply α × σ) (w : World σ) :
    Matches (query q wrapMsg statusMsg call w) (specRead call w) :=
  ⟨rfl, rfl, rfl, fun a => checkReply_accepted _ _ _ a⟩

theorem matches_command {σ α : Type} (c : Cmd) (wrapMsg : Option Str) (statusMsg : Str)
    (call : σ → Reply α × σ) (w : World σ) :
    Matches (command c wrapMsg statusMsg call w) (specIssue c call w) :=
  ⟨rfl, rfl, rfl, fun a => checkReply_accepted _ _ _ a⟩

theorem matches_awaitAction {σ : Type} (p : resolverService σ) (action : Action)
    (w : World σ) : Matches (awaitAction p action w) (specAwait p.client action w) := by
  refine ⟨rfl, rfl, rfl, ?_⟩
  intro a
  cases a
  simp only [awaitAction, specAwait]
  rw [waitForActionStatus_succeeds]
  by_cases h : actionSucceeds action (p.client.waitEvents action w.plane).1 = true
  · simp [h]
  · simp [h]

theorem matches_ensureAndStore {σ : Type} (p : resolverService σ) (path : Str)
    (d : ServerDump) (w : World σ) :
    Matches (ensureAndStore p path d w) (specStore p path d w) := by
  unfold ensureAndStore specStore
  rcases he : EnsureHasDirectory w.disk path with ⟨r, dk⟩
  cases r with
  | error e =>
    simp only [he]
    exact ⟨rfl, rfl, rfl, fun a => by simp⟩
  | ok path2 =>
    simp only [he]
    rcases hs : StoreServer p.json dk path2 d with ⟨r2, dk2⟩
    cases r2 with
    | some e => exact ⟨rfl, rfl, rfl, fun a => by simp⟩
    | none => exact ⟨rfl, rfl, rfl, fun a => by simp⟩

theorem matches_bind {σ α β : Type} {m : M σ α} {f : α → M σ β} {w : World σ}
    {s : SpecRun σ α} {k : α → World σ → SpecRun σ β} (hm : Matches (m w) s)
    (hf : ∀ a, s.val = some a → Matches (f a s.world) (k a s.world)) :
    Matches (M.bind m f w) (s.andThen k) := by
  obtain ⟨hc, hd, hw, hv⟩ := hm
  by_cases h : ∃ a, (m w).result = Res.ok a
  · obtain ⟨a, ha⟩ := h
    have hs : s.val = some a := (hv a).1 ha
    obtain ⟨hc2, hd2, hw2, hv2⟩ := hf a hs
    unfold Matches
    rw [bind_trace_ok m f w a ha, bind_result_ok m f w a ha, bind_world_ok m f w a ha,
      cmds_append, dumps_append, hw, hc, hd, hc2, hd2, hw2]
    simpa [SpecRun.andThen, hs] using hv2
  · have hno : ∀ a, (m w).result ≠ Res.ok a := fun a ha => h ⟨a, ha⟩
    obtain ⟨ht, hw1, hr⟩ := bind_not_ok m f w hno
    have hs : s.val = none := by
      cases hsv : s.val with
      | none => rfl
      | some a => exact absurd ((hv a).2 hsv) (hno a)
    unfold Matches
    rw [ht, hw1, hc, hd, hw]
    simpa [SpecRun.andThen, hs] using hr

theorem matches_unassignFloatingIPs {σ : Type} (p : resolverService σ)
    (hget : GetsByID p.client) : ∀ (fIPs : List FloatingIP) (w : World σ),
    Matches (unassignFloatingIPs p fIPs w) (specUnassignAll p.client fIPs w)
  | [], w => matches_pure () w
  | fIP :: rest, w => by
    unfold unassignFloatingIPs specUnassignAll
    simp only [bind]
    refine matches_bind (matches_query _ _ _ _ w) ?_
    intro a ha
    obtain ⟨code, h1, h2⟩ := accepted_some _ a ha
    have hid : a.ID = fIP.ID := hget _ _ _ _ h1 h2
    simp only [hid]
    refine matches_bind (matches_command _ _ _ _ _) ?_
    intro action _
    refine matches_bind (matches_awaitAction p action _) ?_
    intro _ _
    exact matches_unassignFloatingIPs p hget rest _

theorem matches_unassignPrimaryIP {σ : Type} (p : resolverService σ) (statusMsg : Str)
    (id : Int) (w : World σ) :
    Matches (unassignPrimaryIP p statusMsg id w) (specUnassignPrimary p.client id w) := by
  unfold unassignPrimaryIP specUnassignPrimary
  by_cases h : id = 0
  · rw [if_neg (not_not.2 h), if_pos h]
    exact matches_pure () w
  · rw [if_pos h, if_neg h]
    simp only [bind]
    refine matches_bind (matches_command _ _ _ _ _) ?_
    intro action _
    exact matches_awaitAction p action _

theorem assigned_filter (svr : Server) (fIPs : List FloatingIP) :
    fIPs.filter (fun fIP =>
      match fIP.Server with
      | none => false
      | some id => decide (id = svr.ID)) =
    fIPs.filter (fun f => decide (f.Server = some svr.ID)) := by
  congr 1
  funext f
  cases f.Server <;> simp

theorem matches_createServerDump {σ : Type} (p : resolverService σ) (serverDumpID : Str)
    (svr : Server) (w : World σ) :
    Matches (createServerDump p serverDumpID svr w) (specCapture p serverDumpID svr w) := by
  unfold createServerDump specCapture
  simp only [bind]
  refine matches_bind (matches_query _ _ _ _ w) ?_
  intro fIPs _
  refine matches_bind (matches_query _ _ _ _ _) ?_
  intro sshKeys _
  refine matches_bind (matches_command _ _ _ _ _) ?_
  intro img _
  refine matches_bind (matches_awaitAction p _ _) ?_
  intro _ _
  rw [assigned_filter]
  exact matches_ensureAndStore p _ _ _

theorem matches_freezeTeardown {σ : Type} (p : resolverService σ) (hget : GetsByID p.client)
    (newID : Str) (svr : Server) (d : ServerDump) (w : World σ) :
    Matches (freezeTeardown p newID svr d w)
      ((specUnassignAll p.client d.FloatingIPs w).andThen fun _ w =>
        (specUnassignPrimary p.client d.Server.PublicNet.IPv4.ID w).andThen fun _ w =>
        (specUnassignPrimary p.client d.Server.PublicNet.IPv6.ID w).andThen fun _ w =>
        (specIssue Cmd.deleteServer (p.client.serverDeleteWithResult svr) w).andThen
          fun action w =>
        (specAwait p.client action w).andThen fun _ w =>
        specDone newID w) := by
  unfold freezeTeardown
  simp only [bind]
  refine matches_bind (matches_unassignFloatingIPs p hget _ w) ?_
  intro _ _
  refine matches_bind (matches_unassignPrimaryIP p _ _ _) ?_
  intro _ _
  refine matches_bind (matches_unassignPrimaryIP p _ _ _) ?_
  intro _ _
  refine matches_bind (matches_command _ _ _ _ _) ?_
  intro action _
  refine matches_bind (matches_awaitAction p action _) ?_
  intro _ _
  exact matches_pure _ _

theorem matches_FreezeServer {σ : Type} (p : resolverService σ) (hget : GetsByID p.client)
    (now : Int) (serverName : Str) (w : World σ) :
    Matches (FreezeServer p now serverName w) (specFreeze p now serverName w) := by
  unfold FreezeServer specFreeze serverGetByName
  simp only [bind]
  by_cases hn : serverName = []
  · subst hn
    simp only [List.length_nil, if_true]
    exact matches_bind (k := fun _ w => specStop w) (matches_panicNow w)
      (fun a ha => by cases ha)
  · have hl : ¬ serverName.length = 0 := fun h => hn (List.length_eq_zero.1 h)
    rw [if_neg hl, if_neg hn]
    refine matches_bind (matches_query _ _ _ _ w) ?_
    intro found _
    cases found with
    | none => exact matches_fail _ _
    | some svr =>
      simp only
      refine matches_bind (matches_command _ _ _ _ _) ?_
      intro action _
      refine matches_bind (matches_awaitAction p action _) ?_
      intro _ _
      refine matches_bind (matches_createServerDump p _ svr _) ?_
      intro d _
      exact matches_freezeTeardown p hget _ svr d _

theorem andThen_dumps_sat {σ α β : Type} (P : ServerDump → Prop) (s : SpecRun σ α)
    (k : α → World σ → SpecRun σ β) (hs : ∀ d ∈ s.dumps, P d)
    (hk : ∀ a w, ∀ d ∈ (k a w).dumps, P d) : ∀ d ∈ (s.andThen k).dumps, P d := by
  intro d hd
  unfold SpecRun.andThen at hd
  cases hv : s.val with
  | none =>
    rw [hv] at hd
    exact hs d hd
  | some a =>
    rw [hv] at hd
    rcases List.mem_append.1 hd with h | h
    · exact hs d h
    · exact hk a _ d h

theorem specStore_dumps_sat {σ : Type} (P : ServerDump → Prop) (p : resolverService σ)
    (path : Str) (d : ServerDump) (w : World σ) (hd : P d) :
    ∀ x ∈ (specStore p path d w).dumps, P x := by
  intro x hx
  unfold specStore at hx
  rcases he : EnsureHasDirectory w.disk path with ⟨r, dk⟩
  rw [he] at hx
  cases r with
  | error e => simp at hx
  | ok path2 =>
    simp only [List.mem_singleton] at hx
    subst hx
    exact hd

theorem specUnassignAll_dumps {σ : Type} (P : ServerDump → Prop) (cl : Client σ) :
    ∀ (fIPs : List FloatingIP) (w : World σ), ∀ d ∈ (specUnassignAll cl fIPs w).dumps, P d
  | [], w => by simp [specUnassignAll, specDone]
  | f :: rest, w => by
    unfold specUnassignAll
    refine andThen_dumps_sat P _ _ (by simp [specRead]) ?_
    intro found w1
    refine andThen_dumps_sat P _ _ (by simp [specIssue]) ?_
    intro action w2
    refine andThen_dumps_sat P _ _ (by simp [specAwait]) ?_
    intro _ w3
    exact specUnassignAll_dumps P cl rest w3

theorem specUnassignPrimary_dumps {σ : Type} (P : ServerDump → Prop) (cl : Client σ)
    (id : Int) (w : World σ) : ∀ d ∈ (specUnassignPrimary cl id w).dumps, P d := by
  unfold specUnassignPrimary
  split_ifs
  · simp [specDone]
  · refine andThen_dumps_sat P _ _ (by simp [specIssue]) ?_
    intro action w1
    simp [specAwait]

theorem specCapture_dumps {σ : Type} (p : resolverService σ) (dumpID : Str) (svr : Server)
    (w : World σ) : ∀ d ∈ (specCapture p dumpID svr w).dumps,
      d.Server = svr ∧ ∀ f ∈ d.FloatingIPs, f.Server = some svr.ID := by
  unfold specCapture
  refine andThen_dumps_sat _ _ _ (by simp [specRead]) ?_
  intro fIPs w1
  refine andThen_dumps_sat _ _ _ (by simp [specRead]) ?_
  intro sshKeys w2
  refine andThen_dumps_sat _ _ _ (by simp [specIssue]) ?_
  intro img w3
  refine andThen_dumps_sat _ _ _ (by simp [specAwait]) ?_
  intro _ w4
  refine specStore_dumps_sat _ p _ _ w4 ⟨rfl, ?_⟩
  intro f hf
  simpa using (List.mem_filter.1 hf).2

theorem specFreeze_dumps {σ : Type} (p : resolverService σ) (now : Int) (serverName : Str)
    (w : World σ) : ∀ d ∈ (specFreeze p now serverName w).dumps,
      ∀ f ∈ d.FloatingIPs, f.Server = some d.Server.ID := by
  unfold specFreeze
  split_ifs
  · simp [specStop]
  · refine andThen_dumps_sat _ _ _ (by simp [specRead]) ?_
    intro found w1
    cases found with
    | none => simp [specStop]
    | some svr =>
      simp only
      refine andThen_dumps_sat _ _ _ (by simp [specIssue]) ?_
      intro action w2
      refine andThen_dumps_sat _ _ _ (by simp [specAwait]) ?_
      intro _ w3
      refine andThen_dumps_sat _ _ _ ?_ ?_
      · intro d hd f hf
        obtain ⟨h1, h2⟩ := specCapture_dumps p _ svr w3 d hd
        rw [h1]
        exact h2 f hf
      · intro d w4
        refine andThen_dumps_sat _ _ _ (specUnassignAll_dumps _ _ _ _) ?_
        intro _ w5
        refine andThen_dumps_sat _ _ _ (specUnassignPrimary_dumps _ _ _ _) ?_
        intro _ w6
        refine andThen_dumps_sat _ _ _ (specUnassignPrimary_dumps _ _ _ _) ?_
        intro _ w7
        refine andThen_dumps_sat _ _ _ (by simp [specIssue]) ?_
        intro action w8
        refine andThen_dumps_sat _ _ _ (by simp [specAwait]) ?_
        intro _ w9
        simp [specDone]

theorem getsByID_boomClient : GetsByID boomClient := by
  intro id s code v h _
  simp only [boomClient, demoClient, Prod.mk.injEq, Reply.http.injEq] at h
  rw [← h.2]

/-! ### The claims -/

/-- C1 is false as stated: on the disk where no path exists, `UnfreezeServer` with the
explicit dump id "42" returns the error "missing name" of the client's option validation,
which is not a not-found-style error. -/
theorem UnfreezeServer_missing_dump_error_kind :
    (UnfreezeServer demoService "web".toList "42".toList
        { plane := (), disk := absentDisk }).result
      = Res.err (Err.client "missing name".toList) ∧
    (Err.client "missing name".toList).notFound = false := by
  decide

/-- C1 as amended: for every control plane, every server name and every non-empty explicit
dump id, when the dump directory does not exist (`os.Stat` answers not-exist and the
directory is absent), `UnfreezeServer` returns an error and makes no remote call, so no
create-server call reaches the control plane; the error is the "missing name" error of the
client's validation of the options built from the zero-valued dump, not a not-found-style
error. -/
theorem UnfreezeServer_missing_dump_fails {σ : Type} (p : resolverService σ)
    (w : World σ) (serverName : Str) (c : Char) (cs : Str)
    (hstat : ∃ e, w.disk.stat (NewServerDumpPath p.directory p.project serverName (c :: cs))
      = some e ∧ e.notExist = true)
    (hdir : (w.disk.base (NewServerDumpPath p.directory p.project serverName (c :: cs))).dirExists
      = false) :
    (UnfreezeServer p serverName (c :: cs) w).result
      = Res.err (Err.client "missing name".toList) ∧
    (Err.client "missing name".toList).notFound = false ∧
    (UnfreezeServer p serverName (c :: cs) w).trace
      = [Event.load (NewServerDumpPath p.directory p.project serverName (c :: cs))] ∧
    cmds (UnfreezeServer p serverName (c :: cs) w).trace = [] := by
  obtain ⟨e, he1, he2⟩ := hstat
  have h1 : selectDumpID p serverName (c :: cs) w =
      { result := Res.ok (c :: cs), world := w, trace := [] } := by simp [selectDumpID]
  have h2 : statAndLoad p (NewServerDumpPath p.directory p.project serverName (c :: cs)) w =
      { result := Res.ok ServerDump.zero, world := w
        trace := [Event.load (NewServerDumpPath p.directory p.project serverName (c :: cs))] } := by
    simp [statAndLoad, he1, he2, LoadServer, loadServer, loadParts, load, loadPart, Fs.Open,
      hdir, ErrNotExist, ServerDump.zero]
  have h3 : resolveFloatingIPs p ServerDump.zero.FloatingIPs [] w =
      { result := Res.ok [], world := w, trace := [] } := rfl
  have h4 : serverCreate p (createOpts ServerDump.zero []) w =
      { result := Res.err (Err.client "missing name".toList), world := w, trace := [] } := rfl
  have hno : ∀ a, (serverCreate p (createOpts ServerDump.zero []) w).result ≠ Res.ok a := by
    intro a ha; rw [h4] at ha; cases ha
  have ht : (UnfreezeServer p serverName (c :: cs) w).trace
      = [Event.load (NewServerDumpPath p.directory p.project serverName (c :: cs))] := by
    unfold UnfreezeServer
    simp only [bind]
    rw [bind_trace_ok _ _ _ (c :: cs) (by rw [h1]), h1]
    simp only
    rw [bind_trace_ok _ _ _ ServerDump.zero (by rw [h2]), h2]
    simp only
    rw [bind_trace_ok _ _ _ [] (by rw [h3]), h3]
    simp only
    rw [(bind_not_ok _ _ w hno).1, h4]
    rfl
  have hr : (UnfreezeServer p serverName (c :: cs) w).result
      = Res.err (Err.client "missing name".toList) := by
    unfold UnfreezeServer
    simp only [bind]
    rw [bind_result_ok _ _ _ (c :: cs) (by rw [h1]), h1]
    simp only
    rw [bind_result_ok _ _ _ ServerDump.zero (by rw [h2]), h2]
    simp only
    rw [bind_result_ok _ _ _ [] (by rw [h3]), h3]
    simp only
    unfold M.bind
    rw [h4]
  refine ⟨hr, by decide, ht, ?_⟩
  rw [ht]
  rfl

/-- Witness of C1 as amended: the disk where no path exists and the dump id "42". -/
theorem UnfreezeServer_missing_dump_fails_witness :
    (UnfreezeServer demoService "web".toList "42".toList
        { plane := (), disk := absentDisk }).result
      = Res.err (Err.client "missing name".toList) ∧
    (Err.client "missing name".toList).notFound = false ∧
    (UnfreezeServer demoService "web".toList "42".toList
        { plane := (), disk := absentDisk }).trace
      = [Event.load (NewServerDumpPath [] "proj".toList "web".toList "42".toList)] ∧
    cmds (UnfreezeServer demoService "web".toList "42".toList
        { plane := (), disk := absentDisk }).trace = [] :=
  UnfreezeServer_missing_dump_fails demoService { plane := (), disk := absentDisk }
    "web".toList '4' "2".toList ⟨ErrNotExist, rfl, rfl⟩ rfl

/-- C2 (as the code behaves): in a dump directory whose `server.json` exists and cannot be
read, and in one whose `snapshot.json` does not parse, the closure of `loadServer` computes
the error that names the failing part, and `loadServer` returns a nil error. -/
theorem loadServer_drops_part_error :
    (∀ (j : Json) (e : OsErr),
      (loadParts j { emptyDir with file := fun n =>
          if n = "server.json".toList then Opened.unreadable e else Opened.fails ErrNotExist }).1
        = some (Err.wrap "failed to load 'server'".toList
            (Err.wrap "failed read server".toList (Err.os e))) ∧
      (loadServer j { emptyDir with file := fun n =>
          if n = "server.json".toList then Opened.unreadable e else Opened.fails ErrNotExist }).2
        = none) ∧
    (loadParts demoJson { emptyDir with file := fun n =>
        if n = "snapshot.json".toList then Opened.bytes "x".toList else Opened.fails ErrNotExist }).1
      = some (Err.wrap "failed to load 'snapshot'".toList
          (Err.wrap "failed to read from 'snapshot".toList (Err.lib "invalid".toList))) ∧
    loadServer demoJson { emptyDir with file := fun n =>
        if n = "snapshot.json".toList then Opened.bytes "x".toList else Opened.fails ErrNotExist }
      = (ServerDump.zero, none) := by
  refine ⟨fun j e => ⟨?_, rfl⟩, by decide, by decide⟩
  simp [loadParts, load, loadPart, Fs.Open, emptyDir]

/-- C3: for every dump `d` and every writable dump directory (the empty one included), if
each of the four sub-records round-trips through JSON, `storeServer` returns nil and
`loadServer` on the directory it leaves returns `d` and a nil error. -/
theorem load_store_roundtrip (j : Json) (p : Fs) (d : ServerDump) (hp : p.Writable)
    (h1 : RoundTrips j j.server Server.zero d.Server)
    (h2 : RoundTrips j j.floatingIPs [] d.FloatingIPs)
    (h3 : RoundTrips j j.sshKeys [] d.SSHKeys)
    (h4 : RoundTrips j j.snapshot { ID := 0 } d.Snapshot) :
    (storeServer j p d).1 = none ∧ loadServer j (storeServer j p d).2 = (d, none) := by
  obtain ⟨o1, u1, -, w1, f1⟩ := store_ok j p "server".toList j.server Server.zero d.Server hp h1
  obtain ⟨o2, u2, -, w2, f2⟩ :=
    store_ok j _ "floatingIPs".toList j.floatingIPs [] d.FloatingIPs w1 h2
  obtain ⟨o3, u3, -, w3, f3⟩ := store_ok j _ "sshKeys".toList j.sshKeys [] d.SSHKeys w2 h3
  obtain ⟨o4, u4, -, w4, f4⟩ := store_ok j _ "snapshot".toList j.snapshot ⟨0⟩ d.Snapshot w3 h4
  refine ⟨rfl, ?_⟩
  have hs : (storeServer j p d).2 =
      (store j (store j (store j (store j p "server".toList j.server.Marshal d.Server).2
        "floatingIPs".toList j.floatingIPs.Marshal d.FloatingIPs).2
        "sshKeys".toList j.sshKeys.Marshal d.SSHKeys).2
        "snapshot".toList j.snapshot.Marshal d.Snapshot).2 := rfl
  rw [hs]
  have l1 := load_ok _ "server".toList j.server.Unmarshal Server.zero d.Server o1 w4.1
    (by rw [f4, f3, f2, f1]; simp) u1
  have l2 := load_ok _ "floatingIPs".toList j.floatingIPs.Unmarshal [] d.FloatingIPs o2 w4.1
    (by rw [f4, f3, f2]; simp) u2
  have l3 := load_ok _ "sshKeys".toList j.sshKeys.Unmarshal [] d.SSHKeys o3 w4.1
    (by rw [f4, f3]; simp) u3
  have l4 := load_ok _ "snapshot".toList j.snapshot.Unmarshal ⟨0⟩ d.Snapshot o4 w4.1
    (by rw [f4]; simp) u4
  simp only [loadServer, loadParts, ServerDump.zero, l1, l2, l3, l4]

/-- Witness of C3: the dump whose only non-zero part is the snapshot with id 42, stored in
the empty directory with `demoJson`, loads back. -/
theorem load_store_roundtrip_witness :
    emptyDir.Writable ∧
    (storeServer demoJson emptyDir { ServerDump.zero with Snapshot := { ID := 42 } }).1 = none ∧
    loadServer demoJson
        (storeServer demoJson emptyDir { ServerDump.zero with Snapshot := { ID := 42 } }).2
      = ({ ServerDump.zero with Snapshot := { ID := 42 } }, none) :=
  ⟨⟨rfl, fun _ => rfl, fun _ => rfl⟩,
   load_store_roundtrip demoJson emptyDir { ServerDump.zero with Snapshot := { ID := 42 } }
    ⟨rfl, fun _ => rfl, fun _ => rfl⟩
    ⟨"null".toList, "null".toList, rfl, by decide, rfl, rfl⟩
    ⟨"null".toList, "null".toList, rfl, by decide, rfl, rfl⟩
    ⟨"null".toList, "null".toList, rfl, by decide, rfl, rfl⟩
    ⟨"42".toList, "42".toList, by decide, by decide, rfl, by decide⟩⟩

/-- C4: when some directory name parses as a positive integer, latest selection returns
the decimal string of a number `m` that is the value of a name that parses and is at least
the value of every name that parses; a name that does not parse counts as zero and is not
the string selected. -/
theorem latestDumpID_selects_largest (dirNames : List Str)
    (h : ∃ n ∈ dirNames, (Atoi n).ok = true ∧ 0 < (Atoi n).num) :
    ∃ m : Int, latestDumpID dirNames = Except.ok (Itoa m) ∧ 0 < m ∧
      (∃ n ∈ dirNames, (Atoi n).ok = true ∧ (Atoi n).num = m) ∧
      (∀ n ∈ dirNames, (Atoi n).ok = true → (Atoi n).num ≤ m) ∧
      (∀ n ∈ dirNames, (Atoi n).ok = false → dirNameNum n = 0 ∧ Itoa m ≠ n) := by
  obtain ⟨n0, hn0, hok0, hpos0⟩ := h
  have hne : dirNames.map dirNameNum ≠ [] := by
    intro h0
    rw [List.map_eq_nil_iff] at h0
    rw [h0] at hn0
    simp at hn0
  obtain ⟨hmem, hmax⟩ := slicesSort_last _ hne
  have hpos : 0 < (slicesSort (dirNames.map dirNameNum)).getLastD 0 := by
    have := hmax (dirNameNum n0) (List.mem_map_of_mem _ hn0)
    rw [dirNameNum_of_ok n0 hok0] at this
    omega
  obtain ⟨n1, hn1, hnm1⟩ := List.mem_map.1 hmem
  have hok1 : (Atoi n1).ok = true := by
    by_contra hc
    have hc2 : (Atoi n1).ok = false := by simpa using hc
    rw [← hnm1, dirNameNum_of_not_ok n1 hc2] at hpos
    omega
  refine ⟨(slicesSort (dirNames.map dirNameNum)).getLastD 0, ?_, hpos, ?_, ?_, ?_⟩
  · have hlen : (dirNames.map dirNameNum).length ≠ 0 := by
      intro h0; exact hne (List.length_eq_zero.1 h0)
    simp only [latestDumpID, hlen, if_false]
  · exact ⟨n1, hn1, hok1, by rw [← dirNameNum_of_ok n1 hok1]; exact hnm1⟩
  · intro n hn hok
    have := hmax (dirNameNum n) (List.mem_map_of_mem _ hn)
    rwa [dirNameNum_of_ok n hok] at this
  · intro n hn hbad
    refine ⟨dirNameNum_of_not_ok n hbad, ?_⟩
    intro heq
    have hr := Atoi_range n1 hok1
    rw [← dirNameNum_of_ok n1 hok1, hnm1] at hr
    have hback := Atoi_Itoa _ hr.1 hr.2
    rw [heq] at hback
    rw [hback] at hbad
    simp at hbad

/-- Witness of C4: the names "3", "10", "2", "x" select "10". -/
theorem latestDumpID_selects_largest_witness :
    latestDumpID ["3".toList, "10".toList, "2".toList, "x".toList] = Except.ok "10".toList ∧
    ∃ m : Int, latestDumpID ["3".toList, "10".toList, "2".toList, "x".toList]
        = Except.ok (Itoa m) ∧ 0 < m ∧
      (∃ n ∈ ["3".toList, "10".toList, "2".toList, "x".toList],
        (Atoi n).ok = true ∧ (Atoi n).num = m) ∧
      (∀ n ∈ ["3".toList, "10".toList, "2".toList, "x".toList],
        (Atoi n).ok = true → (Atoi n).num ≤ m) ∧
      (∀ n ∈ ["3".toList, "10".toList, "2".toList, "x".toList],
        (Atoi n).ok = false → dirNameNum n = 0 ∧ Itoa m ≠ n) :=
  ⟨by decide,
   latestDumpID_selects_largest ["3".toList, "10".toList, "2".toList, "x".toList]
     ⟨"3".toList, by decide, by decide, by decide⟩⟩

/-- C5 is false as stated: on the disk where no path exists, `UnfreezeServer` with an empty
dump id fails with the error that wraps the error of the walk, not with "no dumps found". -/
theorem UnfreezeServer_absent_directory_not_noDumps :
    (UnfreezeServer demoService "web".toList [] { plane := (), disk := absentDisk }).result
      = Res.err (Err.wrap "failed to get directories".toList (Err.os ErrNotExist)) ∧
    (UnfreezeServer demoService "web".toList [] { plane := (), disk := absentDisk }).result
      ≠ Res.err Err.noDumps := by
  decide

/-- C5 as amended: with an empty dump id, when the listing of the server's path fails,
which it does when the walk reports an error for the root (an absent directory),
`UnfreezeServer` fails with "failed to get directories" wrapping that error, and when the
listing is empty it fails with "no dumps found"; in both cases it goes no further (no dump
is loaded, no remote call is made). The listing of an existing root directory starts with
the root directory's own name. -/
theorem UnfreezeServer_latest_listing {σ : Type} (p : resolverService σ) (serverName : Str)
    (w : World σ) :
    (∀ e, GetDirectoriesNames w.disk (NewServerPath p.directory p.project serverName)
        = Except.error e →
      (UnfreezeServer p serverName [] w).result
        = Res.err (Err.wrap "failed to get directories".toList (Err.os e)) ∧
      (UnfreezeServer p serverName [] w).trace = []) ∧
    (GetDirectoriesNames w.disk (NewServerPath p.directory p.project serverName) = Except.ok [] →
      (UnfreezeServer p serverName [] w).result = Res.err Err.noDumps ∧
      (UnfreezeServer p serverName [] w).trace = []) ∧
    (∀ v rest e, w.disk.walk (NewServerPath p.directory p.project serverName) = v :: rest →
      v.err = some e →
      GetDirectoriesNames w.disk (NewServerPath p.directory p.project serverName)
        = Except.error e) ∧
    (∀ v rest names, w.disk.walk (NewServerPath p.directory p.project serverName) = v :: rest →
      v.err = none → v.isDir = true →
      GetDirectoriesNames w.disk (NewServerPath p.directory p.project serverName)
        = Except.ok names →
      names.head? = some v.name) := by
  refine ⟨?_, ?_, ?_, ?_⟩
  · intro e he
    have hs : selectDumpID p serverName [] w =
        { result := Res.err (Err.wrap "failed to get directories".toList (Err.os e))
          world := w, trace := [] } := by
      simp [selectDumpID, he]
    have hno : ∀ a, (selectDumpID p serverName [] w).result ≠ Res.ok a := by
      intro a ha; rw [hs] at ha; cases ha
    unfold UnfreezeServer
    simp only [bind]
    refine ⟨?_, by rw [(bind_not_ok (selectDumpID p serverName []) _ w hno).1, hs]⟩
    unfold M.bind
    rw [hs]
  · intro he
    have hs : selectDumpID p serverName [] w =
        { result := Res.err Err.noDumps, world := w, trace := [] } := by
      simp [selectDumpID, he, latestDumpID]
    have hno : ∀ a, (selectDumpID p serverName [] w).result ≠ Res.ok a := by
      intro a ha; rw [hs] at ha; cases ha
    unfold UnfreezeServer
    simp only [bind]
    refine ⟨?_, by rw [(bind_not_ok (selectDumpID p serverName []) _ w hno).1, hs]⟩
    unfold M.bind
    rw [hs]
  · intro v rest e hw hv
    simp [GetDirectoriesNames, hw, walkDirs, hv]
  · intro v rest names hw hv hd hn
    simp only [GetDirectoriesNames, hw, walkDirs, hv, hd, if_true, List.nil_append] at hn
    obtain ⟨t, ht⟩ := walkDirs_prefix _ _ _ hn
    rw [← ht]
    rfl

/-- Witness of C5 as amended: the disk where no path exists. -/
theorem UnfreezeServer_latest_listing_witness :
    GetDirectoriesNames absentDisk (NewServerPath [] "proj".toList "web".toList)
      = Except.error ErrNotExist ∧
    (UnfreezeServer demoService "web".toList [] { plane := (), disk := absentDisk }).result
      = Res.err (Err.wrap "failed to get directories".toList (Err.os ErrNotExist)) ∧
    (UnfreezeServer demoService "web".toList [] { plane := (), disk := absentDisk }).trace = [] :=
  ⟨by decide,
   (UnfreezeServer_latest_listing demoService "web".toList
      { plane := (), disk := absentDisk }).1 ErrNotExist (by decide)⟩

/-- On the disk where the server's path is an existing directory without sub-directories,
the listing holds the root's own name, so `UnfreezeServer` with an empty dump id does not
fail with "no dumps found": it selects the id "0", loads the zero-valued dump from the
missing directory of that id and fails on the validation of the create options. -/
theorem UnfreezeServer_empty_directory_goes_on :
    GetDirectoriesNames emptyDisk (NewServerPath [] "proj".toList "web".toList)
      = Except.ok ["web".toList] ∧
    (UnfreezeServer demoService "web".toList [] { plane := (), disk := emptyDisk }).result
      = Res.err (Err.client "missing name".toList) ∧
    (UnfreezeServer demoService "web".toList [] { plane := (), disk := emptyDisk }).trace
      = [Event.load "output/proj/web/0".toList] := by
  decide

/-- C6: for the empty list of resolved floating IPs the user data is the empty string; for
a non-empty list whose addresses contain no space it is the cloud-config header followed
by the bracketed list `ip, addr, add, a1/32, ..., an/32, dev, eth0`, the addresses in
order, separated by a comma and a space. -/
theorem userData_exact (floatingIPs : List FloatingIP) :
    (floatingIPs = [] → userData floatingIPs = []) ∧
    (floatingIPs ≠ [] → (∀ f ∈ floatingIPs, ' ' ∉ f.IP) →
      userData floatingIPs =
        "#cloud-config\nruncmd:\n- [".toList ++
          stringsJoin (["ip".toList, "addr".toList, "add".toList] ++
            floatingIPs.map (fun f => f.IP ++ "/32".toList) ++
            ["dev".toList, "eth0".toList]) ", ".toList ++ "]".toList) := by
  constructor
  · intro h; subst h; simp [userData]
  · intro hne hsp
    have hlen : (floatingIPs.map (fun item => item.IP ++ "/32".toList)).length > 0 := by
      cases floatingIPs with
      | nil => exact absurd rfl hne
      | cons a b => simp
    have hws : ∀ w ∈ floatingIPs.map (fun item => item.IP ++ "/32".toList), ' ' ∉ w := by
      intro w hw
      obtain ⟨f, hf, rfl⟩ := List.mem_map.1 hw
      intro hc
      rcases List.mem_append.1 hc with h1 | h1
      · exact hsp f hf h1
      · simp at h1
    have hne2 : floatingIPs.map (fun item => item.IP ++ "/32".toList) ≠ [] := by
      simpa using hne
    simp only [userData, hlen, if_true, replace_template]
    congr 2
    have h1 : stringsSplit ("ip addr add ".toList ++
        stringsJoin (floatingIPs.map (fun item => item.IP ++ "/32".toList)) " ".toList ++
          " dev eth0".toList) " ".toList
        = ["ip".toList, "addr".toList, "add".toList] ++
            floatingIPs.map (fun f => f.IP ++ "/32".toList) ++
            ["dev".toList, "eth0".toList] := by
      have h2 := splitScan_joined _ hne2 hws "dev eth0".toList
      simp [stringsSplit, splitScan] at h2 ⊢
      exact h2
    rw [h1]

/-- Witness of C6: the addresses 10.0.0.5 and 10.0.0.6. -/
theorem userData_exact_witness :
    userData [{ ID := 1, IP := "10.0.0.5".toList, Server := none },
              { ID := 2, IP := "10.0.0.6".toList, Server := none }]
      = "#cloud-config\nruncmd:\n- [ip, addr, add, 10.0.0.5/32, 10.0.0.6/32, dev, eth0]".toList ∧
    userData [{ ID := 1, IP := "10.0.0.5".toList, Server := none },
              { ID := 2, IP := "10.0.0.6".toList, Server := none }]
      = "#cloud-config\nruncmd:\n- [".toList ++
          stringsJoin (["ip".toList, "addr".toList, "add".toList] ++
            [{ ID := 1, IP := "10.0.0.5".toList, Server := none },
             { ID := 2, IP := "10.0.0.6".toList, Server := none }].map
              (fun f : FloatingIP => f.IP ++ "/32".toList) ++
            ["dev".toList, "eth0".toList]) ", ".toList ++ "]".toList :=
  ⟨by decide,
   (userData_exact [{ ID := 1, IP := "10.0.0.5".toList, Server := none },
                    { ID := 2, IP := "10.0.0.6".toList, Server := none }]).2
     (by decide) (by decide)⟩

/-- C7 (as the code behaves): for an action in running status, when the cancellation
signal, or the deadline, fires before the first tick, `waitForActionStatus` issues no poll
and panics on the nil `statusAction`; it returns no error. -/
theorem waitForActionStatus_cancel_before_first_poll (id progress : Int) (msg : Str)
    (rest : List WaitEvent) :
    waitForActionStatus ⟨id, ActionStatus.running, progress, msg⟩ (WaitEvent.done :: rest)
      = { result := Res.panic, polls := 0 } ∧
    waitForActionStatus ⟨id, ActionStatus.running, progress, msg⟩ (WaitEvent.deadline :: rest)
      = { result := Res.panic, polls := 0 } := by
  simp [waitForActionStatus, waitLoop]

/-- After at least one successful poll that does not end the wait, a cancellation, or the
deadline, makes `waitForActionStatus` return the error that carries the status observed
last. -/
theorem waitForActionStatus_cancel_after_polls (action : Action) (pre : List (Nat × Action))
    (o : Nat × Action) (rest : List WaitEvent)
    (hs : action.Status ≠ ActionStatus.success)
    (hpre : ∀ x ∈ pre ++ [o], x.1 ≤ 201 ∧ keepsWaiting x.2 = true) :
    waitForActionStatus action (polled (pre ++ [o]) ++ WaitEvent.done :: rest)
      = { result := Res.err (Err.cancelled o.2.Status), polls := pre.length + 1 } ∧
    waitForActionStatus action (polled (pre ++ [o]) ++ WaitEvent.deadline :: rest)
      = { result := Res.err (Err.deadline o.2.Status), polls := pre.length + 1 } := by
  simp only [waitForActionStatus, hs, if_false]
  rw [waitLoop_keeps_waiting _ hpre none 0 _, waitLoop_keeps_waiting _ hpre none 0 _]
  simp [waitLoop]

/-- C8: an action already in success status returns nil with no poll issued. For an
action not in success status and successful polls (status code at most 201): as long as
every observation has status running, or status error with a message containing "Unknown
error", the wait has not ended; at the first other observation it ends, with nil when that
status is success and with the error carrying status and message otherwise, and the
number of polls issued is the number of observations up to that one. -/
theorem waitForActionStatus_polls (action : Action) (pre : List (Nat × Action))
    (hpre : ∀ o ∈ pre, o.1 ≤ 201 ∧ keepsWaiting o.2 = true) :
    (action.Status = ActionStatus.success → ∀ events,
      waitForActionStatus action events = { result := Res.ok (), polls := 0 }) ∧
    (action.Status ≠ ActionStatus.success →
      waitForActionStatus action (polled pre) = { result := Res.blocked, polls := pre.length } ∧
      ∀ (code : Nat) (a : Action) (rest : List WaitEvent), code ≤ 201 → keepsWaiting a = false →
        waitForActionStatus action (polled pre ++ WaitEvent.tick (Reply.http code a) :: rest) =
          { result := if a.Status = ActionStatus.success then Res.ok ()
                      else Res.err (Err.actionFailed ActionStatus.error a.ErrorMessage)
            polls := pre.length + 1 }) := by
  constructor
  · intro h events
    simp [waitForActionStatus, h]
  · intro h
    constructor
    · have := waitLoop_keeps_waiting pre hpre none 0 []
      simp only [List.append_nil] at this
      simp [waitForActionStatus, h, this, waitLoop]
    · intro code a rest hcode hkeep
      have hnot : ¬ (code > 201) := by omega
      simp only [waitForActionStatus, h, if_false]
      rw [waitLoop_keeps_waiting pre hpre none 0 _]
      simp only [keepsWaiting, Bool.or_eq_false_iff, Bool.and_eq_false_iff, decide_eq_false_iff_not]
        at hkeep
      obtain ⟨hrun, herr⟩ := hkeep
      by_cases hs : a.Status = ActionStatus.success
      · simp [waitLoop, hnot, hs]
      · have he : a.Status = ActionStatus.error := by
          cases hst : a.Status with
          | running => exact absurd hst hrun
          | success => exact absurd hst hs
          | error => rfl
        have hmsg : stringsContains a.ErrorMessage "Unknown error".toList = false := by
          rcases herr with h1 | h1
          · exact absurd he h1
          · simpa using h1
        simp at hmsg
        simp [waitLoop, hnot, he, hmsg]

/-- Witness of C8: a running action that reports status error with "Unknown error
occurred" once and then success returns nil after two polls. -/
theorem waitForActionStatus_polls_witness :
    waitForActionStatus demoAction
        (polled [(200, { demoAction with Status := ActionStatus.error
                                         ErrorMessage := "Unknown error occurred".toList })] ++
          WaitEvent.tick (Reply.http 200 { demoAction with Status := ActionStatus.success }) :: [])
      = { result := Res.ok (), polls := 2 } :=
  (waitForActionStatus_polls demoAction
    [(200, { demoAction with Status := ActionStatus.error
                             ErrorMessage := "Unknown error occurred".toList })]
    (by decide)).2 (by decide) |>.2 200 { demoAction with Status := ActionStatus.success } []
      (by decide) (by decide)

/-- C9: for every control plane whose get-floating-IP-by-id answers with the floating IP
asked for, every world and every instant, the mutating commands of a run of `FreezeServer`
are a prefix of shutdown, create-image and, once the dump `d` is captured, the unassignment
of each floating IP of `d` in dump order, of the primary IPv4 and of the primary IPv6 when
their recorded id is not zero, and delete-server; the run returns the new dump id exactly
when it stored a dump, issued the whole sequence and every step (every call and every
awaited action) succeeded; and every step before a delete-server command succeeded.
Against the control plane itself: the commands, the stored dumps and the world left behind
are those of `specFreeze`, which awaits every command on the control plane and stops at
the first step that the control plane does not accept or whose action does not succeed
there; the run returns an id exactly when `specFreeze` does, the same one; and every
floating IP of a stored dump is assigned to the server of that dump. -/
theorem FreezeServer_commands {σ : Type} (p : resolverService σ) (hget : GetsByID p.client)
    (now : Int) (serverName : Str) (w : World σ) :
    (match (dumps (FreezeServer p now serverName w).trace).head? with
      | none => cmds (FreezeServer p now serverName w).trace <+: [Cmd.shutdown, Cmd.createImage]
      | some d => cmds (FreezeServer p now serverName w).trace <+: freezeCmds d) ∧
    ((FreezeServer p now serverName w).result = Res.ok (newDumpID now) ↔
      ∃ d, (dumps (FreezeServer p now serverName w).trace).head? = some d ∧
        cmds (FreezeServer p now serverName w).trace = freezeCmds d ∧
        ∀ e ∈ (FreezeServer p now serverName w).trace, e.good = true) ∧
    (∀ id, (FreezeServer p now serverName w).result = Res.ok id → id = newDumpID now) ∧
    (∀ pre post ok,
      (FreezeServer p now serverName w).trace = pre ++ Event.command Cmd.deleteServer ok :: post →
        ∀ e ∈ pre, e.good = true) ∧
    cmds (FreezeServer p now serverName w).trace = (specFreeze p now serverName w).cmds ∧
    dumps (FreezeServer p now serverName w).trace = (specFreeze p now serverName w).dumps ∧
    (FreezeServer p now serverName w).world = (specFreeze p now serverName w).world ∧
    (∀ id, (FreezeServer p now serverName w).result = Res.ok id ↔
      (specFreeze p now serverName w).val = some id) ∧
    (∀ d ∈ dumps (FreezeServer p now serverName w).trace, ∀ f ∈ d.FloatingIPs,
      f.Server = some d.Server.ID) := by
  have h := freezeSpec_FreezeServer p hget now serverName w
  obtain ⟨hc, hd, hw, hv⟩ := matches_FreezeServer p hget now serverName w
  have h5 : ∀ d ∈ dumps (FreezeServer p now serverName w).trace, ∀ f ∈ d.FloatingIPs,
      f.Server = some d.Server.ID := by
    rw [hd]
    exact specFreeze_dumps p now serverName w
  obtain ⟨h1, h2, h3, h4⟩ := h
  exact ⟨by simpa [freezeCmds] using h1, by simpa [freezeCmds] using h2, h3, h4,
    hc, hd, hw, hv, h5⟩

/-- Witness of C9: the server of `demoClient`, with two of the three floating IPs of the
project and a public IPv4, is shut down, imaged, its two floating IPs and the primary IPv4
are unassigned, and it is deleted, in that order, and the dump holds its two floating IPs;
on `boomClient`, where the awaited shutdown action fails, the run returns that action's
error after the shutdown command alone. -/
theorem FreezeServer_commands_witness :
    cmds (FreezeServer demoService 1234567890123456789 "web".toList
        { plane := (), disk := emptyDisk }).trace
      = [Cmd.shutdown, Cmd.createImage, Cmd.unassignFloatingIP 21, Cmd.unassignFloatingIP 23,
         Cmd.unassignPrimaryIP 11, Cmd.deleteServer] ∧
    (FreezeServer demoService 1234567890123456789 "web".toList
        { plane := (), disk := emptyDisk }).result = Res.ok "123456789".toList ∧
    (dumps (FreezeServer demoService 1234567890123456789 "web".toList
        { plane := (), disk := emptyDisk }).trace).map
      (fun d => d.FloatingIPs.map (fun f => f.ID)) = [[21, 23]] ∧
    (FreezeServer boomService 1234567890123456789 "web".toList
        { plane := (), disk := emptyDisk }).result
      = Res.err (Err.actionFailed ActionStatus.error "boom".toList) ∧
    cmds (FreezeServer boomService 1234567890123456789 "web".toList
        { plane := (), disk := emptyDisk }).trace = [Cmd.shutdown] ∧
    ((FreezeServer demoService 1234567890123456789 "web".toList
        { plane := (), disk := emptyDisk }).result = Res.ok (newDumpID 1234567890123456789) ↔
      ∃ d, (dumps (FreezeServer demoService 1234567890123456789 "web".toList
          { plane := (), disk := emptyDisk }).trace).head? = some d ∧
        cmds (FreezeServer demoService 1234567890123456789 "web".toList
          { plane := (), disk := emptyDisk }).trace = freezeCmds d ∧
        ∀ e ∈ (FreezeServer demoService 1234567890123456789 "web".toList
          { plane := (), disk := emptyDisk }).trace, e.good = true) ∧
    (∀ id, (FreezeServer demoService 1234567890123456789 "web".toList
        { plane := (), disk := emptyDisk }).result = Res.ok id ↔
      (specFreeze demoService 1234567890123456789 "web".toList
        { plane := (), disk := emptyDisk }).val = some id) ∧
    (∀ id, (FreezeServer boomService 1234567890123456789 "web".toList
        { plane := (), disk := emptyDisk }).result = Res.ok id ↔
      (specFreeze boomService 1234567890123456789 "web".toList
        { plane := (), disk := emptyDisk }).val = some id) :=
  ⟨by decide, by decide, by decide, by decide, by decide,
   (FreezeServer_commands demoService getsByID_demoClient 1234567890123456789 "web".toList
      { plane := (), disk := emptyDisk }).2.1,
   (FreezeServer_commands demoService getsByID_demoClient 1234567890123456789 "web".toList
      { plane := (), disk := emptyDisk }).2.2.2.2.2.2.2.1,
   (FreezeServer_commands boomService getsByID_boomClient 1234567890123456789 "web".toList
      { plane := (), disk := emptyDisk }).2.2.2.2.2.2.2.1⟩

/-- C10 (as the code behaves): the dump id is the nanosecond offset within the second. The
instant one nanosecond before second 1 gets the id 999999999, the later instant at second 1
gets the id 0, and latest selection over the two picks the earlier dump. -/
theorem newDumpID_not_monotone :
    (999999999 : Int) < 1000000000 ∧
    newDumpID 999999999 = "999999999".toList ∧ newDumpID 1000000000 = "0".toList ∧
    (Atoi (newDumpID 1000000000)).num < (Atoi (newDumpID 999999999)).num ∧
    latestDumpID [newDumpID 999999999, newDumpID 1000000000]
      = Except.ok (newDumpID 999999999) := by
  decide

/-- C11 is false as stated: with the recorded addresses "10.0.0.2", "10.0.0.x", "10.0.1" and
"10.0.0.256", `UnfreezeServer` skips only "10.0.1"; for "10.0.0.x" and for "10.0.0.256",
which are not four octets, it requests the address 10.0.0.0. -/
theorem UnfreezeServer_attach_malformed_octet :
    attaches (UnfreezeServer netService "web".toList "42".toList
        { plane := (), disk := netDisk }).trace
      = [Cmd.attachToNetwork 5 [10, 0, 0, 2], Cmd.attachToNetwork 6 [10, 0, 0, 0],
         Cmd.attachToNetwork 8 [10, 0, 0, 0]] := by
  decide

/-- C11 as amended: the attach-to-network requests of a run of `UnfreezeServer` are, in
order, a prefix of the requests of the recorded private networks of the dump it loads (all
of them when it returns nil); a recorded network is skipped exactly when its stored address
does not split into four parts at the dots; and when the stored address is four
dot-separated decimal numbers, each in 0..255, the requested address is exactly those four
numbers. -/
theorem UnfreezeServer_attach_requests {σ : Type} (p : resolverService σ)
    (serverName serverDumpID id : Str) (w : World σ)
    (hid : (selectDumpID p serverName serverDumpID w).result = Res.ok id) :
    (attaches (UnfreezeServer p serverName serverDumpID w).trace <+:
        attachCmds (LoadServer p.json w.disk
          (NewServerDumpPath p.directory p.project serverName id)).1.Server.PrivateNet ∧
      ((UnfreezeServer p serverName serverDumpID w).result = Res.ok () →
        attaches (UnfreezeServer p serverName serverDumpID w).trace =
          attachCmds (LoadServer p.json w.disk
            (NewServerDumpPath p.directory p.project serverName id)).1.Server.PrivateNet)) ∧
    (∀ pNet : ServerPrivateNet,
      attachRequest pNet = none ↔ (stringsSplit pNet.IP ".".toList).length ≠ 4) ∧
    (∀ (network : Int) (p1 p2 p3 p4 : Str),
      isDigits p1 = true → isDigits p2 = true → isDigits p3 = true → isDigits p4 = true →
      digitsVal p1 ≤ 255 → digitsVal p2 ≤ 255 → digitsVal p3 ≤ 255 → digitsVal p4 ≤ 255 →
      attachRequest { Network := network, IP := p1 ++ '.' :: (p2 ++ '.' :: (p3 ++ '.' :: p4)) }
        = some (Cmd.attachToNetwork network
            [digitsVal p1, digitsVal p2, digitsVal p3, digitsVal p4])) := by
  refine ⟨attachSpec_UnfreezeServer p serverName serverDumpID id w hid, ?_, ?_⟩
  · intro pNet
    unfold attachRequest
    simp only
    by_cases hlen : (stringsSplit pNet.IP ".".toList).length ≠ 4
    · rw [if_pos hlen]
      exact ⟨fun _ => hlen, fun _ => rfl⟩
    · rw [if_neg hlen]
      exact ⟨fun h => (by cases h), fun h => absurd h hlen⟩
  · intro network p1 p2 p3 p4 h1 h2 h3 h4 v1 v2 v3 v4
    exact attachRequest_octets network p1 p2 p3 p4 h1 h2 h3 h4 v1 v2 v3 v4

/-- Witness of C11 as amended: the dump id "42" on `netDisk`; the well-formed address
"10.0.0.2" is requested as 10.0.0.2. -/
theorem UnfreezeServer_attach_requests_witness :
    (selectDumpID netService "web".toList "42".toList { plane := (), disk := netDisk }).result
      = Res.ok "42".toList ∧
    attaches (UnfreezeServer netService "web".toList "42".toList
        { plane := (), disk := netDisk }).trace <+:
      attachCmds (LoadServer netService.json netDisk
        (NewServerDumpPath netService.directory netService.project "web".toList
          "42".toList)).1.Server.PrivateNet ∧
    attachRequest { Network := 5, IP := "10".toList ++ '.' :: ("0".toList ++ '.' ::
        ("0".toList ++ '.' :: "2".toList)) }
      = some (Cmd.attachToNetwork 5
          [digitsVal "10".toList, digitsVal "0".toList, digitsVal "0".toList,
           digitsVal "2".toList]) :=
  ⟨by decide,
   (UnfreezeServer_attach_requests netService "web".toList "42".toList "42".toList
      { plane := (), disk := netDisk } (by decide)).1.1,
   (UnfreezeServer_attach_requests netService "web".toList "42".toList "42".toList
      { plane := (), disk := netDisk } (by decide)).2.2 5 "10".toList "0".toList "0".toList
      "2".toList (by decide) (by decide) (by decide) (by decide) (by decide) (by decide)
      (by decide) (by decide)⟩

/-- C12: for every JSON library, every dump directory and every dump, `storeServer`, and so
`StoreServer`, returns nil; the statements of `createServerDump` from
`EnsureHasDirectory` on fail only when `EnsureHasDirectory` fails and otherwise return the
dump; and a run of `createServerDump` that reached `StoreServer` returns the dump it
stored, so `FreezeServer` goes on with it. -/
theorem storeServer_returns_nil {σ : Type} (p : resolverService σ) (j : Json) (fs : Fs)
    (s : ServerDump) (path serverDumpID : Str) (svr : Server) (w : World σ) :
    (storeServer j fs s).1 = none ∧
    (StoreServer j w.disk path s).1 = none ∧
    (ensureAndStore p path s w).result =
      (match (EnsureHasDirectory w.disk path).1 with
        | Except.error e => Res.err (Err.wrap "failed to create directory".toList e)
        | Except.ok _ => Res.ok s) ∧
    (∀ d ∈ dumps (createServerDump p serverDumpID svr w).trace,
      (createServerDump p serverDumpID svr w).result = Res.ok d) := by
  refine ⟨rfl, rfl, ?_, ?_⟩
  · unfold ensureAndStore
    rcases he : EnsureHasDirectory w.disk path with ⟨r, dk⟩
    cases r with
    | error e => rfl
    | ok path2 =>
      simp only
      rcases hs : StoreServer p.json dk path2 s with ⟨r2, dk2⟩
      have hnil : r2 = none := by
        have h0 : (StoreServer p.json dk path2 s).1 = none := rfl
        rw [hs] at h0
        exact h0
      subst hnil
      rfl
  · intro d hd
    obtain ⟨-, hno, hok⟩ := phase_createServerDump p serverDumpID svr w
    by_cases h : ∃ a, (createServerDump p serverDumpID svr w).result = Res.ok a
    · obtain ⟨a, ha⟩ := h
      have hq := (hok a ha).2.2
      rw [hq] at hd
      simp only [List.mem_singleton] at hd
      rw [hd]
      exact ha
    · rw [hno (fun a ha => h ⟨a, ha⟩)] at hd
      simp at hd

/-- Witness of C12: in a directory where `Create` fails, in one where `Write` fails, and
with an `Indent` that fails, the closure `store` ends with a non-nil error and
`storeServer` returns nil; on a disk where `Create` fails, `FreezeServer` returns the new
id after issuing every command up to delete-server, and the dump directory holds no
`server.json`. -/
theorem storeServer_returns_nil_witness :
    (store demoJson readOnlyDir "server".toList demoJson.server.Marshal Server.zero).1
      = some (Err.wrap "failed to write to disc".toList
          (Err.wrap "failed to create 'server.json'".toList (Err.os permissionDenied))) ∧
    (store demoJson fullDir "server".toList demoJson.server.Marshal Server.zero).1
      = some (Err.wrap "failed to write to disc".toList
          (Err.wrap "failed to write json output".toList (Err.os noSpace))) ∧
    (store badIndentJson emptyDir "server".toList badIndentJson.server.Marshal Server.zero).1
      = some (Err.wrap "failed to write to disc".toList
          (Err.wrap "failed to format 'server'".toList (Err.lib "invalid character".toList))) ∧
    (storeServer demoJson readOnlyDir ServerDump.zero).1 = none ∧
    (storeServer demoJson fullDir ServerDump.zero).1 = none ∧
    (storeServer badIndentJson emptyDir ServerDump.zero).1 = none ∧
    (FreezeServer demoService 1234567890123456789 "web".toList
        { plane := (), disk := readOnlyDisk }).result = Res.ok "123456789".toList ∧
    cmds (FreezeServer demoService 1234567890123456789 "web".toList
        { plane := (), disk := readOnlyDisk }).trace
      = [Cmd.shutdown, Cmd.createImage, Cmd.unassignFloatingIP 21, Cmd.unassignFloatingIP 23,
         Cmd.unassignPrimaryIP 11, Cmd.deleteServer] ∧
    ((FreezeServer demoService 1234567890123456789 "web".toList
        { plane := (), disk := readOnlyDisk }).world.disk.base
          "output/proj/web/123456789".toList).Open "server.json".toList
      = Opened.fails ErrNotExist ∧
    (∀ d ∈ dumps (createServerDump demoService "123456789".toList demoServer
        { plane := (), disk := readOnlyDisk }).trace,
      (createServerDump demoService "123456789".toList demoServer
        { plane := (), disk := readOnlyDisk }).result = Res.ok d) :=
  ⟨by decide, by decide, by decide,
   (storeServer_returns_nil demoService demoJson readOnlyDir ServerDump.zero [] [] demoServer
      { plane := (), disk := readOnlyDisk }).1,
   by decide, by decide, by decide, by decide, by decide,
   (storeServer_returns_nil demoService demoJson readOnlyDir ServerDump.zero []
      "123456789".toList demoServer { plane := (), disk := readOnlyDisk }).2.2.2⟩

end HetznerFreezer
